import Mathlib

/-! Synchronisation core of SST: a shallow embedding of `syncManager.cc`, with
`uninitializedQueue.cc`, `exit.h`, `part/rrobin.cc` and `sstinfo.cc`.

The C++ classes are embedded as Lean structures and their methods as functions
that pass the state explicitly.

* `σ` is the state of the process outside the `SyncManager` object (barrier,
  time vortex, exit counters, internals of the concrete sync objects).  Classes
  whose bodies live outside `syncManager.cc` appear as records of methods over
  `σ`; the classes defined in `syncManager.cc` (`EmptyRankSync`,
  `EmptyThreadSync`) are embedded from their bodies.
* A `Proc σ` is what one worker sees: its `SyncManager`, the static members of
  the class, the outside state, and the trace of effectful calls that the
  `SyncManager` code itself has issued so far (getters are reads and are not
  recorded).
* A dereference of a null pointer is a `Fault`.
* A `std::string` is a `String`, each `Char` standing for one `char`; a `size_t` or
  an `int` is a `Nat` or an `Int`, with the wrap-around or the overflow written out
  where the code can reach it.
-/

namespace SST

/-! ## Basic types -/

/-- Virtual time, the unsigned 64-bit `SimTime_t`. Only compared, never added. -/
abbrev SimTime_t := Nat

/-- Modelled from the spec: the constant `MAX_SIMTIME_T` of `sst_types.h`
("`MAX` sentinel means never" for a 64-bit tick), the largest 64-bit value. -/
def MAX_SIMTIME_T : SimTime_t := 2 ^ 64 - 1

/-- Link identifier `LinkId_t`. -/
abbrev LinkId_t := Nat

/-- Component identifier `ComponentId_t`. -/
abbrev ComponentId_t := Nat

/-- Modelled from the spec: `RankInfo` of `rankInfo.h`, the pair `(rank, thread)`
that identifies a worker (or, as `num_ranks`, counts ranks and threads). -/
structure RankInfo where
  rank : Nat
  thread : Nat
deriving DecidableEq, Repr

/-- A `Link*` argument; the code under study only passes it on. -/
structure Link where
  id : Nat
deriving DecidableEq, Repr

/-- A `TimeConverter*` argument; the code under study only passes it on. -/
structure TimeConverter where
  factor : Nat
deriving DecidableEq, Repr

/-- Modelled from the spec: the enum `sync_type_t` of `syncManager.h`
(`nextSyncType ∈ {RANK, THREAD}`).  The field `next_sync_type` is not initialised
by the constructor, so it can also hold a value that is neither; `invalid raw`
stands for such a value (`raw` being its bit pattern), which reaches the `default:`
branch of `execute`. -/
inductive sync_type_t
  | RANK
  | THREAD
  | invalid (raw : Nat)
deriving DecidableEq, Repr

/-- An `Activity*` handed to `Simulation::insertActivity`.  `syncManager w` is the
`this` pointer of the `SyncManager` owned by worker `w`. -/
inductive Activity
  | syncManager (owner : RankInfo)
  | other (id : Nat)
deriving DecidableEq, Repr

/-- The value behind a non-null `ActivityQueue*`.  `UninitializedQueue message` is
the placeholder of `uninitializedQueue.cc`; `threadSyncQueue` and `rankQueue`
stand for the queues handed out by the concrete sync classes. -/
inductive ActivityQueue
  | UninitializedQueue (message : String)
  | threadSyncQueue (owner sender : Nat)
  | rankQueue (to_rank : RankInfo)
deriving DecidableEq, Repr

/-- A dereference of a null pointer (`bad_instance`: of an element of
`Simulation::instanceVec`, or an access past its end). -/
inductive Fault
  | null_rankSync
  | null_exit
  | bad_instance
deriving DecidableEq, Repr

/-- The effectful calls issued by the code of `SyncManager`. -/
inductive Call
  | barrier_wait
  | threadSync_before
  | threadSync_after
  | threadSync_execute
  | threadSync_processLinkInitData
  | threadSync_finalizeLinkConfigurations
  | rankSync_execute (thread : Nat)
  | rankSync_exchangeLinkInitData (thread : Nat)
  | rankSync_finalizeLinkConfigurations
  | threadSync_registerLink (link_id : LinkId_t) (link : Link)
  | rankSync_registerLink (to_rank from_rank : RankInfo) (link_id : LinkId_t) (link : Link)
  | exit_check
  | endSimulation (end_time : SimTime_t)
  | insertActivity (time : SimTime_t) (activity : Activity)
  | new_RankSyncSerialSkip
  | new_EmptyRankSync
  | new_ThreadSyncSimpleSkip
  | new_EmptyThreadSync
deriving DecidableEq, Repr

/-! ## Exit (`exit.h`) -/

/-- The data members of class `Exit` (`exit.h`). -/
structure Exit where
  num_threads : Nat
  m_refCount : Nat
  m_thread_counts : List Nat
  m_idSet : List ComponentId_t
  end_time : SimTime_t
  single_rank : Bool
deriving DecidableEq, Repr

/-- `SimTime_t getEndTime() { return end_time; }`. -/
def Exit.getEndTime (e : Exit) : SimTime_t := e.end_time

/-- Modelled from the spec: `Exit::getRefCount`, declared in `exit.h` with its
body in `exit.cc`: "`refCount()` returns the total snapshot". -/
def Exit.getRefCount (e : Exit) : Nat := e.m_refCount

/-- A non-null `Exit*`: where the object lives in the outside state, and
`Exit::check`, whose body is in `exit.cc`. -/
structure ExitPtr (σ : Type) where
  deref : σ → Exit
  check : σ → σ

/-! ## Collaborators whose classes are declared outside `syncManager.cc` -/

/-- The `Core::ThreadSafe::Barrier&` held by a `SyncManager`: `wait`, and the
generation counter of the barrier. -/
structure Barrier (σ : Type) where
  wait : σ → σ
  generation : σ → Nat

/-- The `Simulation*` held by a `SyncManager`: `insertActivity`, `getExit`, and
the `endSimulation` that `Action::endSimulation` forwards to. -/
structure Simulation (σ : Type) where
  insertActivity : SimTime_t → Activity → σ → σ
  endSimulation : SimTime_t → σ → σ
  getExit : Option (ExitPtr σ)

/-- The virtual methods of the concrete `ThreadSyncSimpleSkip`
(`threadSyncSimpleSkip.h`), acting on the outside state. -/
structure ThreadSyncSimpleSkip (σ : Type) where
  before : σ → σ
  after : σ → σ
  execute : σ → σ
  processLinkInitData : σ → σ
  finalizeLinkConfigurations : σ → σ
  registerLink : LinkId_t → Link → σ → σ
  getQueueForThread : Nat → σ → Option ActivityQueue
  getNextSyncTime : σ → SimTime_t

/-- The virtual methods of the concrete `RankSyncSerialSkip`
(`rankSyncSerialSkip.h`), acting on the outside state. -/
structure RankSyncSerialSkip (σ : Type) where
  registerLink : RankInfo → RankInfo → LinkId_t → Link → σ → Option ActivityQueue × σ
  execute : Nat → σ → σ
  exchangeLinkInitData : Nat → σ → σ
  finalizeLinkConfigurations : σ → σ
  getNextSyncTime : σ → SimTime_t

/-- The constructors of the two concrete sync classes, as called with `new` by the
constructor of `SyncManager`. -/
structure ConcreteSyncs (σ : Type) where
  newRankSyncSerialSkip : Barrier σ → TimeConverter → σ → RankSyncSerialSkip σ × σ
  newThreadSyncSimpleSkip : Nat → Nat → Simulation σ → σ → ThreadSyncSimpleSkip σ × σ

/-! ## `EmptyRankSync` and `EmptyThreadSync` (`syncManager.cc`, lines 32-69) -/

/-- Class `EmptyRankSync`: the data member it uses is the inherited `nextSyncTime`. -/
structure EmptyRankSync where
  nextSyncTime : SimTime_t
deriving DecidableEq, Repr

/-- `EmptyRankSync() { nextSyncTime = MAX_SIMTIME_T; }`. -/
def EmptyRankSync.new : EmptyRankSync := { nextSyncTime := MAX_SIMTIME_T }

/-- `ActivityQueue* registerLink(...) { return NULL; }`: the result is the returned
pointer (`none` is `NULL`) and the object after the call. -/
def EmptyRankSync.registerLink (self : EmptyRankSync) (_to_rank _from_rank : RankInfo)
    (_link_id : LinkId_t) (_link : Link) : Option ActivityQueue × EmptyRankSync :=
  (none, self)

/-- `void execute(int thread) {}`. -/
def EmptyRankSync.execute (self : EmptyRankSync) (_thread : Nat) : EmptyRankSync := self

/-- `void exchangeLinkInitData(int thread, std::atomic<int>& msg_count) {}`. -/
def EmptyRankSync.exchangeLinkInitData (self : EmptyRankSync) (_thread : Nat) : EmptyRankSync :=
  self

/-- `void finalizeLinkConfigurations() {}`. -/
def EmptyRankSync.finalizeLinkConfigurations (self : EmptyRankSync) : EmptyRankSync := self

/-- `SimTime_t getNextSyncTime() { return nextSyncTime; }`. -/
def EmptyRankSync.getNextSyncTime (self : EmptyRankSync) : SimTime_t := self.nextSyncTime

/-- `uint64_t getDataSize() const { return 0; }`. -/
def EmptyRankSync.getDataSize (_self : EmptyRankSync) : Nat := 0

/-- Class `EmptyThreadSync`: the data member it uses is the inherited `nextSyncTime`. -/
structure EmptyThreadSync where
  nextSyncTime : SimTime_t
deriving DecidableEq, Repr

/-- `EmptyThreadSync () { nextSyncTime = MAX_SIMTIME_T; }`. -/
def EmptyThreadSync.new : EmptyThreadSync := { nextSyncTime := MAX_SIMTIME_T }

/-- `void before() {}`. -/
def EmptyThreadSync.before (self : EmptyThreadSync) : EmptyThreadSync := self

/-- `void after() {}`. -/
def EmptyThreadSync.after (self : EmptyThreadSync) : EmptyThreadSync := self

/-- `void execute() {}`. -/
def EmptyThreadSync.execute (self : EmptyThreadSync) : EmptyThreadSync := self

/-- `void processLinkInitData() {}`. -/
def EmptyThreadSync.processLinkInitData (self : EmptyThreadSync) : EmptyThreadSync := self

/-- `void finalizeLinkConfigurations() {}`. -/
def EmptyThreadSync.finalizeLinkConfigurations (self : EmptyThreadSync) : EmptyThreadSync := self

/-- `void registerLink(LinkId_t link_id, Link* link) {}`. -/
def EmptyThreadSync.registerLink (self : EmptyThreadSync) (_link_id : LinkId_t) (_link : Link) :
    EmptyThreadSync := self

/-- `ActivityQueue* getQueueForThread(int tid) { return NULL; }`. -/
def EmptyThreadSync.getQueueForThread (_self : EmptyThreadSync) (_tid : Nat) :
    Option ActivityQueue := none

/-- Modelled from the spec: `NewThreadSync::getNextSyncTime`, inherited unchanged by
`EmptyThreadSync` from `syncBase.h`; it reads the `nextSyncTime` of the
"ThreadSync state". -/
def EmptyThreadSync.getNextSyncTime (self : EmptyThreadSync) : SimTime_t := self.nextSyncTime

/-! ## The abstract bases with virtual dispatch -/

/-- The object behind a non-null `NewRankSync*`: one of the two classes that the
constructor of `SyncManager` instantiates. -/
inductive NewRankSync (σ : Type)
  | ofEmpty (obj : EmptyRankSync)
  | ofSerialSkip (obj : RankSyncSerialSkip σ)

/-- The object behind a non-null `NewThreadSync*`. -/
inductive NewThreadSync (σ : Type)
  | ofEmpty (obj : EmptyThreadSync)
  | ofSimpleSkip (obj : ThreadSyncSimpleSkip σ)

variable {σ : Type}

/-- Virtual call `rankSync->execute(thread)`. -/
def NewRankSync.execute : NewRankSync σ → Nat → σ → NewRankSync σ × σ
  | .ofEmpty o, thread, s => (.ofEmpty (o.execute thread), s)
  | .ofSerialSkip o, thread, s => (.ofSerialSkip o, o.execute thread s)

/-- Virtual call `rankSync->exchangeLinkInitData(thread, msg_count)`. -/
def NewRankSync.exchangeLinkInitData : NewRankSync σ → Nat → σ → NewRankSync σ × σ
  | .ofEmpty o, thread, s => (.ofEmpty (o.exchangeLinkInitData thread), s)
  | .ofSerialSkip o, thread, s => (.ofSerialSkip o, o.exchangeLinkInitData thread s)

/-- Virtual call `rankSync->finalizeLinkConfigurations()`. -/
def NewRankSync.finalizeLinkConfigurations : NewRankSync σ → σ → NewRankSync σ × σ
  | .ofEmpty o, s => (.ofEmpty o.finalizeLinkConfigurations, s)
  | .ofSerialSkip o, s => (.ofSerialSkip o, o.finalizeLinkConfigurations s)

/-- Virtual call `rankSync->getNextSyncTime()`. -/
def NewRankSync.getNextSyncTime : NewRankSync σ → σ → SimTime_t
  | .ofEmpty o, _ => o.getNextSyncTime
  | .ofSerialSkip o, s => o.getNextSyncTime s

/-- Virtual call `rankSync->registerLink(to_rank, from_rank, link_id, link)`. -/
def NewRankSync.registerLink : NewRankSync σ → RankInfo → RankInfo → LinkId_t → Link → σ →
    Option ActivityQueue × NewRankSync σ × σ
  | .ofEmpty o, to_rank, from_rank, link_id, link, s =>
      ((o.registerLink to_rank from_rank link_id link).1,
        .ofEmpty (o.registerLink to_rank from_rank link_id link).2, s)
  | .ofSerialSkip o, to_rank, from_rank, link_id, link, s =>
      ((o.registerLink to_rank from_rank link_id link s).1, .ofSerialSkip o,
        (o.registerLink to_rank from_rank link_id link s).2)

/-- Virtual call `threadSync->before()`. -/
def NewThreadSync.before : NewThreadSync σ → σ → NewThreadSync σ × σ
  | .ofEmpty o, s => (.ofEmpty o.before, s)
  | .ofSimpleSkip o, s => (.ofSimpleSkip o, o.before s)

/-- Virtual call `threadSync->after()`. -/
def NewThreadSync.after : NewThreadSync σ → σ → NewThreadSync σ × σ
  | .ofEmpty o, s => (.ofEmpty o.after, s)
  | .ofSimpleSkip o, s => (.ofSimpleSkip o, o.after s)

/-- Virtual call `threadSync->execute()`. -/
def NewThreadSync.execute : NewThreadSync σ → σ → NewThreadSync σ × σ
  | .ofEmpty o, s => (.ofEmpty o.execute, s)
  | .ofSimpleSkip o, s => (.ofSimpleSkip o, o.execute s)

/-- Virtual call `threadSync->processLinkInitData()`. -/
def NewThreadSync.processLinkInitData : NewThreadSync σ → σ → NewThreadSync σ × σ
  | .ofEmpty o, s => (.ofEmpty o.processLinkInitData, s)
  | .ofSimpleSkip o, s => (.ofSimpleSkip o, o.processLinkInitData s)

/-- Virtual call `threadSync->finalizeLinkConfigurations()`. -/
def NewThreadSync.finalizeLinkConfigurations : NewThreadSync σ → σ → NewThreadSync σ × σ
  | .ofEmpty o, s => (.ofEmpty o.finalizeLinkConfigurations, s)
  | .ofSimpleSkip o, s => (.ofSimpleSkip o, o.finalizeLinkConfigurations s)

/-- Virtual call `threadSync->getNextSyncTime()`. -/
def NewThreadSync.getNextSyncTime : NewThreadSync σ → σ → SimTime_t
  | .ofEmpty o, _ => o.getNextSyncTime
  | .ofSimpleSkip o, s => o.getNextSyncTime s

/-! ## `SyncManager` -/

/-- The static data members of class `SyncManager` (lines 28-30); `sync_mutex` is
never used by the code under study. -/
structure Statics (σ : Type) where
  rankSync : Option (NewRankSync σ)
  next_rankSync : SimTime_t

/-- `NewRankSync* SyncManager::rankSync = NULL;` and
`SimTime_t SyncManager::next_rankSync = MAX_SIMTIME_T;`. -/
def Statics.init : Statics σ := { rankSync := none, next_rankSync := MAX_SIMTIME_T }

/-- The non-static data members of a constructed `SyncManager`.  `exit` is a
pointer that may be null; `threadSync` is assigned a fresh object on every path of
the constructor. -/
structure SyncManager (σ : Type) where
  rank : RankInfo
  num_ranks : RankInfo
  barrier : Barrier σ
  threadSync : NewThreadSync σ
  next_threadSync : SimTime_t
  next_sync_type : sync_type_t
  sim : Simulation σ
  exit : Option (ExitPtr σ)

/-- What one worker sees while a method of its `SyncManager` runs. -/
structure Proc (σ : Type) where
  mgr : SyncManager σ
  statics : Statics σ
  env : σ
  trace : List Call

/-- The pointer `this` of the `SyncManager` of a worker, as an `Activity*`. -/
def Proc.this (p : Proc σ) : Activity := Activity.syncManager p.mgr.rank

/-- Statement `barrier.wait();`. -/
def Proc.barrier_wait (p : Proc σ) : Proc σ :=
  { p with env := p.mgr.barrier.wait p.env, trace := p.trace ++ [Call.barrier_wait] }

/-- Statement `threadSync->before();`. -/
def Proc.threadSync_before (p : Proc σ) : Proc σ :=
  { p with
    mgr := { p.mgr with threadSync := (p.mgr.threadSync.before p.env).1 }
    env := (p.mgr.threadSync.before p.env).2
    trace := p.trace ++ [Call.threadSync_before] }

/-- Statement `threadSync->after();`. -/
def Proc.threadSync_after (p : Proc σ) : Proc σ :=
  { p with
    mgr := { p.mgr with threadSync := (p.mgr.threadSync.after p.env).1 }
    env := (p.mgr.threadSync.after p.env).2
    trace := p.trace ++ [Call.threadSync_after] }

/-- Statement `threadSync->execute();`. -/
def Proc.threadSync_execute (p : Proc σ) : Proc σ :=
  { p with
    mgr := { p.mgr with threadSync := (p.mgr.threadSync.execute p.env).1 }
    env := (p.mgr.threadSync.execute p.env).2
    trace := p.trace ++ [Call.threadSync_execute] }

/-- Statement `threadSync->finalizeLinkConfigurations();`. -/
def Proc.threadSync_finalizeLinkConfigurations (p : Proc σ) : Proc σ :=
  { p with
    mgr := { p.mgr with threadSync := (p.mgr.threadSync.finalizeLinkConfigurations p.env).1 }
    env := (p.mgr.threadSync.finalizeLinkConfigurations p.env).2
    trace := p.trace ++ [Call.threadSync_finalizeLinkConfigurations] }

/-- Statement `rankSync->execute(thread);` through the static pointer. -/
def Proc.rankSync_execute (p : Proc σ) (thread : Nat) : Except Fault (Proc σ) :=
  match p.statics.rankSync with
  | none => Except.error Fault.null_rankSync
  | some rankSync =>
    Except.ok { p with
      statics := { p.statics with rankSync := some (rankSync.execute thread p.env).1 }
      env := (rankSync.execute thread p.env).2
      trace := p.trace ++ [Call.rankSync_execute thread] }

/-- Statement `rankSync->finalizeLinkConfigurations();` through the static pointer. -/
def Proc.rankSync_finalizeLinkConfigurations (p : Proc σ) : Except Fault (Proc σ) :=
  match p.statics.rankSync with
  | none => Except.error Fault.null_rankSync
  | some rankSync =>
    Except.ok { p with
      statics := { p.statics with rankSync := some (rankSync.finalizeLinkConfigurations p.env).1 }
      env := (rankSync.finalizeLinkConfigurations p.env).2
      trace := p.trace ++ [Call.rankSync_finalizeLinkConfigurations] }

/-- Statement `exit->check();` on a non-null `exit`. -/
def Proc.exit_check (p : Proc σ) (exit : ExitPtr σ) : Proc σ :=
  { p with env := exit.check p.env, trace := p.trace ++ [Call.exit_check] }

/-- Statement `endSimulation(end);` (inherited from `Action`, which forwards to the
simulation). -/
def Proc.endSimulation (p : Proc σ) (end_time : SimTime_t) : Proc σ :=
  { p with
    env := p.mgr.sim.endSimulation end_time p.env
    trace := p.trace ++ [Call.endSimulation end_time] }

/-- Statement `sim->insertActivity(time, this);`. -/
def Proc.insertActivity (p : Proc σ) (time : SimTime_t) : Proc σ :=
  { p with
    env := p.mgr.sim.insertActivity time p.this p.env
    trace := p.trace ++ [Call.insertActivity time p.this] }

/-- Assignment `next_sync_type = v;`. -/
def Proc.set_next_sync_type (p : Proc σ) (v : sync_type_t) : Proc σ :=
  { p with mgr := { p.mgr with next_sync_type := v } }

/-- `SyncManager::SyncManager` (lines 72-101).  `getSimulation` is the result of
`Simulation::getSimulation()`; `uninit` is the content of the field
`next_sync_type`, which the constructor does not initialise. -/
def SyncManager.new (cls : ConcreteSyncs σ) (getSimulation : Simulation σ) (uninit : sync_type_t)
    (rank num_ranks : RankInfo) (barrier : Barrier σ) (minPartTC : TimeConverter)
    (_interThreadLatencies : List SimTime_t) (statics : Statics σ) (env : σ) : Proc σ :=
  -- if ( rank.thread == 0 ) { if ( num_ranks.rank > 1 ) ... else ... }
  let r : Statics σ × σ × List Call :=
    if rank.thread = 0 then
      if num_ranks.rank > 1 then
        ({ statics with
            rankSync := some (NewRankSync.ofSerialSkip
              (cls.newRankSyncSerialSkip barrier minPartTC env).1) },
          (cls.newRankSyncSerialSkip barrier minPartTC env).2, [Call.new_RankSyncSerialSkip])
      else
        ({ statics with rankSync := some (NewRankSync.ofEmpty EmptyRankSync.new) }, env,
          [Call.new_EmptyRankSync])
    else (statics, env, [])
  -- if ( num_ranks.thread > 1 ) ... else ...
  let t : NewThreadSync σ × σ × List Call :=
    if num_ranks.thread > 1 then
      (NewThreadSync.ofSimpleSkip
          (cls.newThreadSyncSimpleSkip num_ranks.thread rank.thread getSimulation r.2.1).1,
        (cls.newThreadSyncSimpleSkip num_ranks.thread rank.thread getSimulation r.2.1).2,
        r.2.2 ++ [Call.new_ThreadSyncSimpleSkip])
    else (NewThreadSync.ofEmpty EmptyThreadSync.new, r.2.1, r.2.2 ++ [Call.new_EmptyThreadSync])
  { mgr :=
      { rank := rank
        num_ranks := num_ranks
        barrier := barrier
        threadSync := t.1
        next_threadSync := 0
        next_sync_type := uninit
        sim := getSimulation
        exit := getSimulation.getExit }
    statics := r.1
    env := t.2.1
    trace := t.2.2 }

/-- `SyncManager::computeNextInsert` (lines 222-236). -/
def SyncManager.computeNextInsert (p : Proc σ) : Except Fault (Proc σ) :=
  match p.statics.rankSync with
  | none => Except.error Fault.null_rankSync
  | some rankSync =>
    if rankSync.getNextSyncTime p.env ≤ p.mgr.threadSync.getNextSyncTime p.env then
      Except.ok ((p.set_next_sync_type sync_type_t.RANK).insertActivity
        (rankSync.getNextSyncTime p.env))
    else
      Except.ok ((p.set_next_sync_type sync_type_t.THREAD).insertActivity
        (p.mgr.threadSync.getNextSyncTime p.env))

/-- The `switch ( next_sync_type )` statement of `SyncManager::execute`
(lines 141-191). -/
def SyncManager.execute_switch (p : Proc σ) : Except Fault (Proc σ) :=
  match p.mgr.next_sync_type with
  | sync_type_t.RANK => do
    let p := p.barrier_wait
    let p := p.threadSync_before
    let p := p.barrier_wait
    let p ← p.rankSync_execute p.mgr.rank.thread
    let p := p.barrier_wait
    let p := p.threadSync_after
    let p := p.barrier_wait
    -- if ( exit != NULL && rank.thread == 0 ) exit->check();
    let p :=
      match p.mgr.exit with
      | some exit => if p.mgr.rank.thread = 0 then p.exit_check exit else p
      | none => p
    let p := p.barrier_wait
    pure p
  | sync_type_t.THREAD =>
    let p := p.threadSync_execute
    if p.mgr.num_ranks.rank = 1 then
      -- exit->getRefCount() reads through `exit` without a null test
      match p.mgr.exit with
      | none => Except.error Fault.null_exit
      | some exit =>
        if (exit.deref p.env).getRefCount = 0 then
          Except.ok (p.endSimulation (exit.deref p.env).getEndTime)
        else Except.ok p
    else Except.ok p
  | sync_type_t.invalid _ => Except.ok p

/-- `SyncManager::execute` (lines 136-194): the switch, then `computeNextInsert();`. -/
def SyncManager.execute (p : Proc σ) : Except Fault (Proc σ) :=
  (SyncManager.execute_switch p).bind SyncManager.computeNextInsert

/-- `SyncManager::finalizeLinkConfigurations` (lines 209-220). -/
def SyncManager.finalizeLinkConfigurations (p : Proc σ) : Except Fault (Proc σ) :=
  let p1 := p.threadSync_finalizeLinkConfigurations
  -- Only thread 0 should call finalize on rankSync
  (if p1.mgr.rank.thread = 0 then p1.rankSync_finalizeLinkConfigurations
    else Except.ok p1).bind SyncManager.computeNextInsert


/-! ## A sample outside state on which the definitions can be run -/

/-- A small outside state: the generation of the barrier, the content of the time
vortex, the end time published by `endSimulation`, the `Exit` object, and the next
sync times reported by the sample concrete syncs. -/
structure World where
  generation : Nat
  timeVortex : List (SimTime_t × Activity)
  endSimCycle : Option SimTime_t
  exit : Exit
  rankNext : SimTime_t
  threadNext : SimTime_t
deriving DecidableEq, Repr

/-- Modelled from the spec: the barrier of `threadsafe.h`, "a reusable N-party
barrier with a monotonically incrementing generation"; a completed `wait` is one
generation later. -/
def World.barrier : Barrier World :=
  { wait := fun w => { w with generation := w.generation + 1 }
    generation := fun w => w.generation }

/-- A sample `Exit*` into a `World`; its `check` leaves the state alone. -/
def World.exitPtr : ExitPtr World :=
  { deref := fun w => w.exit
    check := fun w => w }

/-- A sample `Simulation*` into a `World`: `insertActivity` appends to the time
vortex, `endSimulation` publishes the end time. -/
def World.sim : Simulation World :=
  { insertActivity := fun time activity w =>
      { w with timeVortex := w.timeVortex ++ [(time, activity)] }
    endSimulation := fun end_time w => { w with endSimCycle := some end_time }
    getExit := some World.exitPtr }

/-- A sample concrete thread sync: reports `threadNext`, never waits on the
barrier. -/
def World.simpleSkip : ThreadSyncSimpleSkip World :=
  { before := fun w => w
    after := fun w => w
    execute := fun w => w
    processLinkInitData := fun w => w
    finalizeLinkConfigurations := fun w => w
    registerLink := fun _ _ w => w
    getQueueForThread := fun tid _ => some (ActivityQueue.threadSyncQueue 0 tid)
    getNextSyncTime := fun w => w.threadNext }

/-- A sample concrete rank sync: reports `rankNext`, never waits on the barrier. -/
def World.serialSkip : RankSyncSerialSkip World :=
  { registerLink := fun to_rank _ _ _ w => (some (ActivityQueue.rankQueue to_rank), w)
    execute := fun _ w => w
    exchangeLinkInitData := fun _ w => w
    finalizeLinkConfigurations := fun w => w
    getNextSyncTime := fun w => w.rankNext }

/-- The constructors of the sample concrete syncs. -/
def World.syncs : ConcreteSyncs World :=
  { newRankSyncSerialSkip := fun _ _ w => (World.serialSkip, w)
    newThreadSyncSimpleSkip := fun _ _ _ w => (World.simpleSkip, w) }

/-- A sample initial `World`: generation 0, empty vortex, an `Exit` with the given
reference count and end time 250, and the given next sync times. -/
def World.start (refCount : Nat) (rankNext threadNext : SimTime_t) : World :=
  { generation := 0
    timeVortex := []
    endSimCycle := none
    exit :=
      { num_threads := 1, m_refCount := refCount, m_thread_counts := [refCount], m_idSet := []
        end_time := 250, single_rank := true }
    rankNext := rankNext
    threadNext := threadNext }

/-- A freshly constructed `SyncManager` in the sample world, with `next_sync_type`
holding `ty`. -/
def World.proc (ty : sync_type_t) (rank num_ranks : RankInfo) (statics : Statics World)
    (w : World) : Proc World :=
  SyncManager.new World.syncs World.sim ty rank num_ranks World.barrier { factor := 1 } []
    statics w

/-- The calls a method run issued, or `none` when it faulted. -/
def traceOf (r : Except Fault (Proc σ)) : Option (List Call) :=
  match r with
  | Except.ok p => some p.trace
  | Except.error _ => none

/-- The barrier generation after a method run, or `none` when it faulted. -/
def generationOf (r : Except Fault (Proc σ)) : Option Nat :=
  match r with
  | Except.ok p => some (p.mgr.barrier.generation p.env)
  | Except.error _ => none

/-- The value of `next_sync_type` after a method run, or `none` when it faulted. -/
def syncTypeOf (r : Except Fault (Proc σ)) : Option sync_type_t :=
  match r with
  | Except.ok p => some p.mgr.next_sync_type
  | Except.error _ => none


/-! ## Sequences of calls on the empty syncs -/

/-- One call of an operation of `EmptyRankSync`. -/
inductive EmptyRankSync.Op
  | registerLink (to_rank from_rank : RankInfo) (link_id : LinkId_t) (link : Link)
  | execute (thread : Nat)
  | exchangeLinkInitData (thread : Nat)
  | finalizeLinkConfigurations
deriving DecidableEq, Repr

/-- The `EmptyRankSync` object after one call. -/
def EmptyRankSync.step (self : EmptyRankSync) : EmptyRankSync.Op → EmptyRankSync
  | .registerLink to_rank from_rank link_id link =>
      (self.registerLink to_rank from_rank link_id link).2
  | .execute thread => self.execute thread
  | .exchangeLinkInitData thread => self.exchangeLinkInitData thread
  | .finalizeLinkConfigurations => self.finalizeLinkConfigurations

/-- The `EmptyRankSync` object after a sequence of calls, first call first. -/
def EmptyRankSync.run (self : EmptyRankSync) (ops : List EmptyRankSync.Op) : EmptyRankSync :=
  ops.foldl EmptyRankSync.step self

/-- One call of an operation of `EmptyThreadSync`. -/
inductive EmptyThreadSync.Op
  | before
  | after
  | execute
  | processLinkInitData
  | finalizeLinkConfigurations
  | registerLink (link_id : LinkId_t) (link : Link)
deriving DecidableEq, Repr

/-- The `EmptyThreadSync` object after one call. -/
def EmptyThreadSync.step (self : EmptyThreadSync) : EmptyThreadSync.Op → EmptyThreadSync
  | .before => self.before
  | .after => self.after
  | .execute => self.execute
  | .processLinkInitData => self.processLinkInitData
  | .finalizeLinkConfigurations => self.finalizeLinkConfigurations
  | .registerLink link_id link => self.registerLink link_id link

/-- The `EmptyThreadSync` object after a sequence of calls, first call first. -/
def EmptyThreadSync.run (self : EmptyThreadSync) (ops : List EmptyThreadSync.Op) :
    EmptyThreadSync :=
  ops.foldl EmptyThreadSync.step self

/-! ## `UninitializedQueue` (`uninitializedQueue.cc`) -/

/-- Class `UninitializedQueue`: its data member is the diagnostic `message`. -/
structure UninitializedQueue where
  message : String
deriving DecidableEq, Repr

/-- What a call on an `UninitializedQueue` does: it either returns a value and leaves
a queue behind, or it aborts the process after having written `stdout`. -/
inductive Outcome (α : Type)
  | returns (value : α) (queue : UninitializedQueue)
  | aborts (stdout : String)
deriving DecidableEq, Repr

/-- `UninitializedQueue::UninitializedQueue(std::string message)`. -/
def UninitializedQueue.new (message : String) : UninitializedQueue := { message := message }

/-- `UninitializedQueue::UninitializedQueue()`: the message is the empty string. -/
def UninitializedQueue.newDefault : UninitializedQueue := { message := "" }

/-- `bool empty()`: `std::cout << message << std::endl; abort();`. -/
def UninitializedQueue.empty (self : UninitializedQueue) : Outcome Bool :=
  Outcome.aborts (self.message ++ "\n")

/-- `int size()`: `std::cout << message << std::endl; abort();`. -/
def UninitializedQueue.size (self : UninitializedQueue) : Outcome Int :=
  Outcome.aborts (self.message ++ "\n")

/-- `void insert(Activity* activity)`: `std::cout << message << std::endl; abort();`. -/
def UninitializedQueue.insert (self : UninitializedQueue) (_activity : Option Activity) :
    Outcome Unit :=
  Outcome.aborts (self.message ++ "\n")

/-- `Activity* pop()`: `std::cout << message << std::endl; abort();`. -/
def UninitializedQueue.pop (self : UninitializedQueue) : Outcome (Option Activity) :=
  Outcome.aborts (self.message ++ "\n")

/-- `Activity* front()`: `std::cout << message << std::endl; abort();`. -/
def UninitializedQueue.front (self : UninitializedQueue) : Outcome (Option Activity) :=
  Outcome.aborts (self.message ++ "\n")

/-! ## `SyncManager::registerLink` (`syncManager.cc`, lines 106-134) -/

/-- Virtual call `threadSync->registerLink(link_id, link)`. -/
def NewThreadSync.registerLink : NewThreadSync σ → LinkId_t → Link → σ → NewThreadSync σ × σ
  | .ofEmpty o, link_id, link, s => (.ofEmpty (o.registerLink link_id link), s)
  | .ofSimpleSkip o, link_id, link, s => (.ofSimpleSkip o, o.registerLink link_id link s)

/-- Virtual call `threadSync->getQueueForThread(tid)`; `none` is the null pointer. -/
def NewThreadSync.getQueueForThread : NewThreadSync σ → Nat → σ → Option ActivityQueue
  | .ofEmpty o, tid, _ => o.getQueueForThread tid
  | .ofSimpleSkip o, tid, s => o.getQueueForThread tid s

/-- `SyncManager::registerLink`.  `instanceVec thread` is the object behind
`Simulation::instanceVec[thread]->syncManager->threadSync`, `none` when that
expression cannot be evaluated.  The result is the returned pointer (`none` is
`NULL`) and the state after the call. -/
def SyncManager.registerLink (instanceVec : Nat → Option (NewThreadSync σ)) (p : Proc σ)
    (to_rank from_rank : RankInfo) (link_id : LinkId_t) (link : Link) :
    Except Fault (Option ActivityQueue × Proc σ) :=
  if to_rank = from_rank then
    Except.ok (none, p)  -- This should never happen
  else if to_rank.rank = from_rank.rank then
    -- Same rank, different thread.
    -- For the local ThreadSync, just need to register the link
    let p1 : Proc σ :=
      { p with
        mgr := { p.mgr with threadSync := (p.mgr.threadSync.registerLink link_id link p.env).1 }
        env := (p.mgr.threadSync.registerLink link_id link p.env).2
        trace := p.trace ++ [Call.threadSync_registerLink link_id link] }
    -- Need to get target queue from the remote ThreadSync
    match instanceVec to_rank.thread with
    | none => Except.error Fault.bad_instance
    | some remoteSync => Except.ok (remoteSync.getQueueForThread from_rank.thread p1.env, p1)
  else
    -- Different rank.  Send info onto the RankSync
    match p.statics.rankSync with
    | none => Except.error Fault.null_rankSync
    | some rankSync =>
      Except.ok
        ((rankSync.registerLink to_rank from_rank link_id link p.env).1,
          { p with
            statics :=
              { p.statics with
                rankSync := some (rankSync.registerLink to_rank from_rank link_id link p.env).2.1 }
            env := (rankSync.registerLink to_rank from_rank link_id link p.env).2.2
            trace := p.trace ++ [Call.rankSync_registerLink to_rank from_rank link_id link] })

/-! ## `Exit::refInc` and `Exit::refDec` (declared in `exit.h`, bodies in `exit.cc`) -/

/-- Modelled from the spec: the constructor `Exit(num_threads, period, single_rank)`,
whose body is in `exit.cc`: an `Exit` with no registered component, a zero total and
a zero count for each of the `num_threads` threads. -/
def Exit.new (num_threads : Nat) (single_rank : Bool) : Exit :=
  { num_threads := num_threads
    m_refCount := 0
    m_thread_counts := List.replicate num_threads 0
    m_idSet := []
    end_time := 0
    single_rank := single_rank }

/-- The array `m_thread_counts` with `f` applied to the entry of `thread`; an index
past the end changes nothing. -/
def Exit.adjust (f : Nat → Nat) : List Nat → Nat → List Nat
  | [], _ => []
  | c :: cs, 0 => f c :: cs
  | c :: cs, thread + 1 => c :: Exit.adjust f cs thread

/-- Modelled from the spec: `Exit::refInc(componentId, thread)`, whose body is in
`exit.cc`: "`refInc(componentId, thread)` and `refDec(componentId, thread)` update
the per-thread counter and total"; the component id joins the set kept for
diagnostics. -/
def Exit.refInc (e : Exit) (id : ComponentId_t) (thread : Nat) : Exit :=
  { e with
    m_refCount := e.m_refCount + 1
    m_thread_counts := Exit.adjust (fun c => c + 1) e.m_thread_counts thread
    m_idSet := id :: e.m_idSet }

/-- Modelled from the spec: `Exit::refDec(componentId, thread)`, whose body is in
`exit.cc`: it updates the per-thread counter and the total and drops the component
id from the set; a "`refDec` below zero" is a fatal termination anomaly, here `none`. -/
def Exit.refDec (e : Exit) (id : ComponentId_t) (thread : Nat) : Option Exit :=
  if e.m_refCount = 0 ∨ e.m_thread_counts.getD thread 0 = 0 then none
  else
    some
      { e with
        m_refCount := e.m_refCount - 1
        m_thread_counts := Exit.adjust (fun c => c - 1) e.m_thread_counts thread
        m_idSet := e.m_idSet.erase id }

/-- One call of `refInc` or `refDec`. -/
inductive Exit.Op
  | refInc (id : ComponentId_t) (thread : Nat)
  | refDec (id : ComponentId_t) (thread : Nat)
deriving DecidableEq, Repr

/-- The thread index a call passes. -/
def Exit.Op.thread : Exit.Op → Nat
  | .refInc _ thread => thread
  | .refDec _ thread => thread

/-- The `Exit` object after one call, `none` when the call is fatal. -/
def Exit.step (e : Exit) : Exit.Op → Option Exit
  | .refInc id thread => some (e.refInc id thread)
  | .refDec id thread => e.refDec id thread

/-- The states of an `Exit` after each completed call of a sequence, first call
first; the sequence stops at a fatal call. -/
def Exit.history (e : Exit) : List Exit.Op → List Exit
  | [] => []
  | op :: ops =>
    match e.step op with
    | none => []
    | some e' => e' :: Exit.history e' ops

/-! ## `SSTRoundRobinPartition` (`part/rrobin.cc`) -/

/-- The largest value of the C type `int`. -/
def INT_MAX : Int := 2 ^ 31 - 1

/-- An element of the `PartitionComponentMap_t` of a `PartitionGraph` (declared in
`configGraph.h`): the data member `rank`, an `int`, and `others`, which stands for
all its remaining data members. -/
structure PartitionComponent (α : Type) where
  rank : Int
  others : α
deriving DecidableEq, Repr

/-- Class `SSTRoundRobinPartition`: its data member is `world_size`, an `int`. -/
structure SSTRoundRobinPartition where
  world_size : Int
deriving DecidableEq, Repr

/-- `SSTRoundRobinPartition::SSTRoundRobinPartition(int mpiranks)`. -/
def SSTRoundRobinPartition.new (mpiranks : Int) : SSTRoundRobinPartition :=
  { world_size := mpiranks }

/-- The `for` loop of `performPartition` from the iterator position that has the
components `compMap` still ahead, with the current value of `counter`.  The result
is `none` when the loop runs into undefined behaviour: a remainder by zero, or
`counter++` past `INT_MAX`. -/
def SSTRoundRobinPartition.loop {α : Type} (world_size : Int) :
    Int → List (PartitionComponent α) → Option (List (PartitionComponent α))
  | _, [] => some []
  | counter, comp :: rest =>
    if world_size = 0 then none
    else if counter = INT_MAX then none
    else
      -- compItr->rank = (counter % world_size); counter++;
      (SSTRoundRobinPartition.loop world_size (counter + 1) rest).map
        fun done => { comp with rank := Int.tmod counter world_size } :: done

/-- `SSTRoundRobinPartition::performPartition` (lines 41-53) on the component map of
the graph, given in iteration order; the result is the component map afterwards. -/
def SSTRoundRobinPartition.performPartition {α : Type} (self : SSTRoundRobinPartition)
    (compMap : List (PartitionComponent α)) : Option (List (PartitionComponent α)) :=
  SSTRoundRobinPartition.loop self.world_size 0 compMap

/-! ## `ConfigSSTInfo` (`sstinfo.cc`, lines 382-480) -/

/-- The content of the `po::variables_map` after a successful
`po::store(po::parse_command_line(...))`: whether `--help` and `--version` occur, and
the values of `--libs` and `--format` when they occur. -/
structure variables_map where
  help : Bool
  version : Bool
  libs : Option (List String)
  format : Option String
deriving DecidableEq, Repr

/-- `std::transform(s.begin(), s.end(), s.begin(), ::tolower)` on a `std::string`. -/
def tolower (s : String) : String := String.mk (s.data.map Char.toLower)

/-- The data members of `ConfigSSTInfo` that `parseCmdLine` writes. -/
structure ConfigSSTInfo where
  m_optionBits : Nat
  m_elementsToProcess : List String
deriving DecidableEq, Repr

/-- `ConfigSSTInfo::ConfigSSTInfo()`: `m_optionBits = 0x0;`, no element yet. -/
def ConfigSSTInfo.new : ConfigSSTInfo := { m_optionBits := 0, m_elementsToProcess := [] }

/-- `ConfigSSTInfo::parseCmdLine` (lines 397-480).  `parsed` is the outcome of the
command-line parser of the library (`Except.error` when it throws);
`CFG_FORMATHUMAN` is the mask of `sstinfo.h`.  The result is the return value and the
object afterwards; what is printed is left out. -/
def ConfigSSTInfo.parseCmdLine (CFG_FORMATHUMAN : Nat) (self : ConfigSSTInfo)
    (parsed : Except String variables_map) : Int × ConfigSSTInfo :=
  match parsed with
  | Except.error _ => (-1, self)
  | Except.ok m_vm =>
    -- Check if user is asking for help
    if m_vm.help then (1, self)
    -- Check if user is asking for version
    else if m_vm.version then (1, self)
    else
      let m_elementsToProcess :=
        match m_vm.libs with
        | some libs => libs
        | none => self.m_elementsToProcess ++ ["all"]
      let strformat :=
        match m_vm.format with
        | some format => tolower format
        | none => "human"
      let strformat :=
        if strformat ≠ "human" ∧ strformat ≠ "computer" then "human" else strformat
      let m_optionBits :=
        if strformat = "human" then self.m_optionBits ||| CFG_FORMATHUMAN
        else self.m_optionBits
      (0, { m_optionBits := m_optionBits, m_elementsToProcess := m_elementsToProcess })

/-! ## Successive sync epochs of one worker -/

/-- The run of a worker through successive firings of its `SyncManager`: before each
firing the other activities of the worker change the outside state (`between`), then
`execute` runs.  The result lists the value of `next_sync_type` found by each
`execute`, and the final state. -/
def SyncManager.epochs (p : Proc σ) : List (σ → σ) → Except Fault (List sync_type_t × Proc σ)
  | [] => Except.ok ([], p)
  | between :: rest =>
    match SyncManager.execute { p with env := between p.env } with
    | Except.error fault => Except.error fault
    | Except.ok p2 =>
      match SyncManager.epochs p2 rest with
      | Except.error fault => Except.error fault
      | Except.ok (types, p3) => Except.ok (p.mgr.next_sync_type :: types, p3)

/-! ## `processSSTElementFiles` and `loadLibrary` (`sstinfo.cc`, lines 128-253) -/

/-- `std::string::npos`, the largest value of the 64-bit `size_t`. -/
def npos : Nat := 2 ^ 64 - 1

/-- Subtraction `a - b` of two `size_t` values (both below `2 ^ 64`), which wraps
around below zero. -/
def size_t_sub (a b : Nat) : Nat := if b ≤ a then a - b else 2 ^ 64 - (b - a)

/-- Whether the characters `pat` stand at the start of `s`. -/
def starts : List Char → List Char → Bool
  | [], _ => true
  | _ :: _, [] => false
  | p :: ps, c :: cs => if p = c then starts ps cs else false

/-- The lowest position, counted from `i`, at which `pat` occurs in `s`. -/
def findFrom (pat : List Char) : List Char → Nat → Option Nat
  | [], i => if starts pat [] then some i else none
  | c :: cs, i => if starts pat (c :: cs) then some i else findFrom pat cs (i + 1)

/-- `s.find(pat)` of `std::string`: the position of the first occurrence of `pat`,
or `npos`. -/
def string_find (s pat : String) : Nat := (findFrom pat.data s.data 0).getD npos

/-- `s.substr(pos, len)` of `std::string`: the characters from `pos` on, at most
`len` of them; `none` when it throws `std::out_of_range` (`pos > size()`). -/
def string_substr (s : String) (pos len : Nat) : Option String :=
  if pos > s.length then none else some (String.mk ((s.data.drop pos).take len))

/-- An `ElementLibraryInfo*` that is not null; the code under study only passes it
on. -/
structure ElementLibraryInfo where
  name : String
deriving DecidableEq, Repr

/-- What `readdir` and `stat` report on one directory entry: its name, and the flag
`isDir = dirEntryStat.st_mode & S_IFDIR` that the code computes from the mode (`none`
when `stat` fails).  The flag is set for a directory, and also for any other file type
whose mode shares a bit with `S_IFDIR`, such as a socket or a block device. -/
structure dirent where
  d_name : String
  stat : Option Bool
deriving DecidableEq, Repr

/-- `loadLibrary` (lines 246-300): it builds `libname = "lib" + elemlib` and asks the
dynamic loader for it; `ltdl libname elemlib` is the info block the loader ends up
with (`none` is the null pointer). -/
def loadLibrary (ltdl : String → String → Option ElementLibraryInfo) (elemlib : String) :
    Option ElementLibraryInfo :=
  ltdl ("lib" ++ elemlib) elemlib

/-- The condition of the `if` at lines 187-191 of `processSSTElementFiles`, on the
name of a directory entry and its flag `isDir`. -/
def isElementLibrary (dirEntryName : String) (isDir : Bool) : Bool :=
  let indexExt := string_find dirEntryName ".so"
  let indexLib := string_find dirEntryName "lib"
  (isDir == false) && (indexExt != npos) && (indexExt == size_t_sub dirEntryName.length 3) &&
    (indexLib != npos) && (indexLib == 0)

/-- The global and local variables of `processSSTElementFiles` that it writes, with
the arguments of its `loadLibrary` calls (`loaded`) and the names of its "not found"
warnings (`warnings`), in order. -/
structure SSTInfo where
  g_fileProcessedCount : Nat
  g_libInfoArray : List ElementLibraryInfo
  EntryProcessedArray : List Bool
  loaded : List String
  warnings : List String
deriving DecidableEq, Repr

/-- The inner `for (x = ...)` loop of `processSSTElementFiles` (lines 179-210) for
one directory entry, from index `x` on; `none` when `substr` throws. -/
def SSTInfo.visit (ltdl : String → String → Option ElementLibraryInfo) (testAllEntries : Bool)
    (dirEntryName : String) (isDir : Bool) : Nat → List String → SSTInfo → Option SSTInfo
  | _, [], st => some st
  | x, request :: rest, st =>
    -- Check to see if we are supposed to process just this file or all files
    if testAllEntries || dirEntryName == request then
      if isElementLibrary dirEntryName isDir then
        match string_substr dirEntryName 3 (size_t_sub dirEntryName.length 6) with
        | none => none
        | some elementName =>
          let st1 : SSTInfo :=
            { st with
              g_fileProcessedCount := st.g_fileProcessedCount + 1
              loaded := st.loaded ++ [elementName] }
          let st2 : SSTInfo :=
            match loadLibrary ltdl elementName with
            | some pELI =>
              { st1 with
                g_libInfoArray := st1.g_libInfoArray ++ [pELI]
                EntryProcessedArray := st1.EntryProcessedArray.set x true }
            | none => st1
          SSTInfo.visit ltdl testAllEntries dirEntryName isDir (x + 1) rest st2
      else SSTInfo.visit ltdl testAllEntries dirEntryName isDir (x + 1) rest st
    else SSTInfo.visit ltdl testAllEntries dirEntryName isDir (x + 1) rest st

/-- The `while ((pDirEntry = readdir(pDir)) != 0)` loop (lines 164-211) over the
entries still to be read.  The flag of the result is `true` when the loop was left
by the `return` after a failed `stat`. -/
def SSTInfo.readdir (ltdl : String → String → Option ElementLibraryInfo) (testAllEntries : Bool)
    (requests : List String) : List dirent → SSTInfo → Option (SSTInfo × Bool)
  | [], st => some (st, false)
  | entry :: entries, st =>
    match entry.stat with
    | none => some (st, true)
    | some isDir =>
      match SSTInfo.visit ltdl testAllEntries entry.d_name isDir 0 requests st with
      | none => none
      | some st1 => SSTInfo.readdir ltdl testAllEntries requests entries st1

/-- `processSSTElementFiles` (lines 128-229).  `requests` is
`g_configuration.GetElementsToProcessArray()`, `g_libInfoArray` the global array
before the call, `dir` the listing that `opendir` and `readdir` give (`none` when
`opendir` fails); the result is `none` when an exception escapes. -/
def processSSTElementFiles (ltdl : String → String → Option ElementLibraryInfo)
    (requests : List String) (g_libInfoArray : List ElementLibraryInfo)
    (dir : Option (List dirent)) : Option SSTInfo :=
  -- Figure out if we are supposed to check all entrys
  let testAllEntries : Bool := requests.any fun request => request == "all"
  let st0 : SSTInfo :=
    { g_fileProcessedCount := 0
      g_libInfoArray := g_libInfoArray
      EntryProcessedArray := requests.map fun request => request == "all"
      loaded := []
      warnings := [] }
  match dir with
  | none => some st0
  | some entries =>
    match SSTInfo.readdir ltdl testAllEntries requests entries st0 with
    | none => none
    | some (st, true) => some st
    | some (st, false) =>
      -- Now check to see if we processed all entries
      if testAllEntries = false then
        some { st with
          warnings :=
            ((requests.zip st.EntryProcessedArray).filter fun entry => entry.2 == false).map
              fun entry => entry.1 }
      else some st

/-! ## What `g_fileProcessedCount` is reported to be -/

/-- Whether the request list selects a directory entry name: it holds `"all"`, or it
holds the name. -/
def selectedByRequests (requests : List String) (dirEntryName : String) : Bool :=
  (requests.any fun request => request == "all") || requests.contains dirEntryName

/-- The number that `outputSSTElementInfo` announces as "PROCESSED %d .so (SST
ELEMENT) FILES FOUND IN DIRECTORY": the directory entries that pass the library-name
filter and are selected by the request list, each counted once. -/
def processedFilesFound (requests : List String) (entries : List dirent) : Nat :=
  (entries.filter fun entry =>
    isElementLibrary entry.d_name (entry.stat.getD true) &&
      selectedByRequests requests entry.d_name).length

/-- The number of indices `x` of the request list at which the inner loop of
`processSSTElementFiles` selects a directory entry name. -/
def selectingRequests (requests : List String) (dirEntryName : String) : Nat :=
  requests.countP fun request =>
    (requests.any fun request => request == "all") || dirEntryName == request

/-! ## Facts shared by the theorems below -/

theorem NewThreadSync.threadSync_before_fst (ts : NewThreadSync σ) (s : σ) : (ts.before s).1 = ts := by
  cases ts <;> rfl

theorem NewThreadSync.threadSync_after_fst (ts : NewThreadSync σ) (s : σ) : (ts.after s).1 = ts := by
  cases ts <;> rfl

theorem NewThreadSync.threadSync_execute_fst (ts : NewThreadSync σ) (s : σ) : (ts.execute s).1 = ts := by
  cases ts <;> rfl

theorem NewThreadSync.threadSync_finalize_fst (ts : NewThreadSync σ) (s : σ) :
    (ts.finalizeLinkConfigurations s).1 = ts := by
  cases ts <;> rfl

theorem NewRankSync.rankSync_execute_fst (rs : NewRankSync σ) (thread : Nat) (s : σ) :
    (rs.execute thread s).1 = rs := by
  cases rs <;> rfl

theorem NewRankSync.rankSync_finalize_fst (rs : NewRankSync σ) (s : σ) :
    (rs.finalizeLinkConfigurations s).1 = rs := by
  cases rs <;> rfl

/-- With a non-null `rankSync`, `computeNextInsert` returns, and what it does is
determined by the comparison of the two next sync times. -/
theorem SyncManager.computeNextInsert_eq (p : Proc σ) (rankSync : NewRankSync σ)
    (hrs : p.statics.rankSync = some rankSync) :
    SyncManager.computeNextInsert p =
      Except.ok
        (if rankSync.getNextSyncTime p.env ≤ p.mgr.threadSync.getNextSyncTime p.env then
          (p.set_next_sync_type sync_type_t.RANK).insertActivity (rankSync.getNextSyncTime p.env)
        else
          (p.set_next_sync_type sync_type_t.THREAD).insertActivity
            (p.mgr.threadSync.getNextSyncTime p.env)) := by
  simp only [SyncManager.computeNextInsert, hrs]
  split <;> rfl

/-- With a non-null `rankSync`, the `RANK` branch of the switch of `execute` returns
in the state reached by its nine statements. -/
theorem SyncManager.execute_switch_RANK (p : Proc σ) (rankSync : NewRankSync σ)
    (hty : p.mgr.next_sync_type = sync_type_t.RANK)
    (hrs : p.statics.rankSync = some rankSync) :
    ∃ q, SyncManager.execute_switch p = Except.ok q ∧ q.mgr = p.mgr ∧
      q.statics = p.statics ∧
      q.trace =
        p.trace ++
          ([Call.barrier_wait, Call.threadSync_before, Call.barrier_wait,
              Call.rankSync_execute p.mgr.rank.thread, Call.barrier_wait,
              Call.threadSync_after, Call.barrier_wait] ++
            (if p.mgr.rank.thread = 0 ∧ p.mgr.exit.isSome = true then [Call.exit_check]
              else []) ++
            [Call.barrier_wait]) ∧
      q.env =
        p.mgr.barrier.wait
          ((match p.mgr.exit with
            | some exit => if p.mgr.rank.thread = 0 then exit.check else id
            | none => id)
            (p.mgr.barrier.wait
              (p.mgr.threadSync.after
                (p.mgr.barrier.wait
                  (rankSync.execute p.mgr.rank.thread
                    (p.mgr.barrier.wait
                      (p.mgr.threadSync.before
                        (p.mgr.barrier.wait p.env)).2)).2)).2)) := by
  obtain ⟨mgr, statics, env, trace⟩ := p
  obtain ⟨rank, num_ranks, barrier, threadSync, nts, ty, sim, exit⟩ := mgr
  obtain ⟨rs, nrs⟩ := statics
  simp only at hty hrs
  subst hty hrs
  cases exit with
  | none =>
    simp [SyncManager.execute_switch, Proc.barrier_wait, Proc.threadSync_before,
      Proc.threadSync_after, Proc.rankSync_execute, bind, Except.bind, pure, Except.pure, NewThreadSync.threadSync_before_fst,
      NewThreadSync.threadSync_after_fst, NewRankSync.rankSync_execute_fst]
  | some ex =>
    by_cases hk : rank.thread = 0
    · simp [SyncManager.execute_switch, Proc.barrier_wait, Proc.threadSync_before,
        Proc.threadSync_after, Proc.rankSync_execute, Proc.exit_check, bind, Except.bind, pure,
        Except.pure,
        NewThreadSync.threadSync_before_fst, NewThreadSync.threadSync_after_fst, NewRankSync.rankSync_execute_fst, hk]
    · simp [SyncManager.execute_switch, Proc.barrier_wait, Proc.threadSync_before,
        Proc.threadSync_after, Proc.rankSync_execute, Proc.exit_check, bind, Except.bind, pure,
        Except.pure,
        NewThreadSync.threadSync_before_fst, NewThreadSync.threadSync_after_fst, NewRankSync.rankSync_execute_fst, hk]

/-- With a non-null `rankSync`, `computeNextInsert` returns after exactly one call,
an `insertActivity` of `this`, and touches nothing but `next_sync_type`. -/
theorem SyncManager.computeNextInsert_spec (q : Proc σ) (rankSync : NewRankSync σ)
    (hrs : q.statics.rankSync = some rankSync) :
    ∃ p' time, SyncManager.computeNextInsert q = Except.ok p' ∧
      p'.trace = q.trace ++ [Call.insertActivity time (Activity.syncManager q.mgr.rank)] ∧
      p'.env = q.mgr.sim.insertActivity time (Activity.syncManager q.mgr.rank) q.env ∧
      p'.mgr.barrier = q.mgr.barrier := by
  rw [SyncManager.computeNextInsert_eq q rankSync hrs]
  by_cases h : rankSync.getNextSyncTime q.env ≤ q.mgr.threadSync.getNextSyncTime q.env
  · exact ⟨_, rankSync.getNextSyncTime q.env, by rw [if_pos h], by
      simp [h, Proc.insertActivity, Proc.set_next_sync_type, Proc.this]⟩
  · exact ⟨_, q.mgr.threadSync.getNextSyncTime q.env, by rw [if_neg h], by
      simp [h, Proc.insertActivity, Proc.set_next_sync_type, Proc.this]⟩

/-- When the pointer `exit` is non-null whenever the `THREAD` branch reads through it,
that branch returns after `threadSync->execute()` and at most one `endSimulation`. -/
theorem SyncManager.execute_switch_THREAD (p : Proc σ)
    (hty : p.mgr.next_sync_type = sync_type_t.THREAD)
    (hex : p.mgr.num_ranks.rank = 1 → p.mgr.exit ≠ none) :
    ∃ q, SyncManager.execute_switch p = Except.ok q ∧ q.mgr = p.mgr ∧ q.statics = p.statics ∧
      (q.trace = p.trace ++ [Call.threadSync_execute] ∧
          q.env = (p.mgr.threadSync.execute p.env).2 ∨
        ∃ end_time, q.trace = p.trace ++ [Call.threadSync_execute, Call.endSimulation end_time] ∧
          q.env = p.mgr.sim.endSimulation end_time (p.mgr.threadSync.execute p.env).2) := by
  obtain ⟨mgr, statics, env, trace⟩ := p
  obtain ⟨rank, num_ranks, barrier, threadSync, nts, ty, sim, exit⟩ := mgr
  simp only at hty hex
  subst hty
  by_cases h1 : num_ranks.rank = 1
  · cases exit with
    | none => exact absurd rfl (hex h1)
    | some ex =>
      by_cases h0 : (ex.deref (threadSync.execute env).2).getRefCount = 0
      · refine ⟨_, by
          simp only [SyncManager.execute_switch, Proc.threadSync_execute, h1, h0, if_true]
          rfl, ?_⟩
        simp [Proc.endSimulation, NewThreadSync.threadSync_execute_fst]
      · refine ⟨_, by
          simp only [SyncManager.execute_switch, Proc.threadSync_execute, h1, h0, if_true,
            if_false]
          rfl, ?_⟩
        simp [NewThreadSync.threadSync_execute_fst]
  · refine ⟨_, by
      simp only [SyncManager.execute_switch, Proc.threadSync_execute, h1, if_false]
      rfl, ?_⟩
    simp [NewThreadSync.threadSync_execute_fst]

/-! ## Claims about `computeNextInsert` -/

/-- C1: for every pair of next sync times `r` (rank sync) and `t` (thread sync),
`computeNextInsert` returns and leaves `next_sync_type` equal to `RANK` if and only
if `r ≤ t`, and equal to `THREAD` if and only if not `r ≤ t`. -/
theorem C1_computeNextInsert_sync_type (p : Proc σ) (rankSync : NewRankSync σ) (r t : SimTime_t)
    (hrs : p.statics.rankSync = some rankSync)
    (hr : rankSync.getNextSyncTime p.env = r)
    (ht : p.mgr.threadSync.getNextSyncTime p.env = t) :
    ∃ p', SyncManager.computeNextInsert p = Except.ok p' ∧
      (p'.mgr.next_sync_type = sync_type_t.RANK ↔ r ≤ t) ∧
      (p'.mgr.next_sync_type = sync_type_t.THREAD ↔ ¬ r ≤ t) := by
  refine ⟨_, SyncManager.computeNextInsert_eq p rankSync hrs, ?_⟩
  rw [hr, ht]
  by_cases h : r ≤ t <;>
    simp [h, Proc.insertActivity, Proc.set_next_sync_type]

/-- C1, witnessed on a two-rank, two-thread worker whose rank sync reports 30 and
whose thread sync reports 20. -/
theorem C1_computeNextInsert_sync_type_witness :
    ∃ p', SyncManager.computeNextInsert
        (World.proc sync_type_t.RANK ⟨0, 0⟩ ⟨2, 2⟩ Statics.init (World.start 2 30 20)) =
          Except.ok p' ∧
      (p'.mgr.next_sync_type = sync_type_t.RANK ↔ 30 ≤ 20) ∧
      (p'.mgr.next_sync_type = sync_type_t.THREAD ↔ ¬ 30 ≤ 20) :=
  C1_computeNextInsert_sync_type
    (World.proc sync_type_t.RANK ⟨0, 0⟩ ⟨2, 2⟩ Statics.init (World.start 2 30 20))
    (NewRankSync.ofSerialSkip World.serialSkip) 30 20 rfl rfl rfl

/-- C2: for every pair of next sync times `r` and `t`, `computeNextInsert` issues
exactly one call, `sim->insertActivity(min r t, this)`, and `min r t` is the next
sync time of the sync that `next_sync_type` names afterwards. -/
theorem C2_computeNextInsert_inserts_self_at_min (p : Proc σ) (rankSync : NewRankSync σ)
    (r t : SimTime_t)
    (hrs : p.statics.rankSync = some rankSync)
    (hr : rankSync.getNextSyncTime p.env = r)
    (ht : p.mgr.threadSync.getNextSyncTime p.env = t) :
    ∃ p', SyncManager.computeNextInsert p = Except.ok p' ∧
      p'.trace = p.trace ++ [Call.insertActivity (min r t) (Activity.syncManager p.mgr.rank)] ∧
      p'.env = p.mgr.sim.insertActivity (min r t) (Activity.syncManager p.mgr.rank) p.env ∧
      (p'.mgr.next_sync_type = sync_type_t.RANK ∧ min r t = r ∨
        p'.mgr.next_sync_type = sync_type_t.THREAD ∧ min r t = t) := by
  refine ⟨_, SyncManager.computeNextInsert_eq p rankSync hrs, ?_⟩
  rw [hr, ht]
  by_cases h : r ≤ t
  · simp [h, Proc.insertActivity, Proc.set_next_sync_type, Proc.this]
  · have h' : t ≤ r := Nat.le_of_lt (Nat.lt_of_not_le h)
    simp [h, h', Proc.insertActivity, Proc.set_next_sync_type, Proc.this]

/-- C2, witnessed on a single-rank, two-thread worker: the empty rank sync reports
`MAX_SIMTIME_T` and the thread sync reports 20. -/
theorem C2_computeNextInsert_inserts_self_at_min_witness :
    ∃ p', SyncManager.computeNextInsert
        (World.proc sync_type_t.RANK ⟨0, 0⟩ ⟨1, 2⟩ Statics.init (World.start 2 30 20)) =
          Except.ok p' ∧
      p'.trace =
        [Call.new_EmptyRankSync, Call.new_ThreadSyncSimpleSkip] ++
          [Call.insertActivity (min MAX_SIMTIME_T 20) (Activity.syncManager ⟨0, 0⟩)] ∧
      p'.env =
        World.sim.insertActivity (min MAX_SIMTIME_T 20) (Activity.syncManager ⟨0, 0⟩)
          (World.start 2 30 20) ∧
      (p'.mgr.next_sync_type = sync_type_t.RANK ∧ min MAX_SIMTIME_T 20 = MAX_SIMTIME_T ∨
        p'.mgr.next_sync_type = sync_type_t.THREAD ∧ min MAX_SIMTIME_T 20 = 20) :=
  C2_computeNextInsert_inserts_self_at_min
    (World.proc sync_type_t.RANK ⟨0, 0⟩ ⟨1, 2⟩ Statics.init (World.start 2 30 20))
    (NewRankSync.ofEmpty EmptyRankSync.new) MAX_SIMTIME_T 20 rfl rfl rfl


/-! ## Claims about `execute` -/

/-- C3: when `next_sync_type` is `RANK`, `execute` on the worker with thread id `k`
issues, in this order: barrier wait, `threadSync->before()`, barrier wait,
`rankSync->execute(k)`, barrier wait, `threadSync->after()`, barrier wait,
`exit->check()` exactly when `k = 0` and `exit` is non-null, barrier wait; and then
runs `computeNextInsert`, which inserts the `SyncManager` once. -/
theorem C3_execute_RANK_order (p : Proc σ) (rankSync : NewRankSync σ) (k : Nat)
    (hty : p.mgr.next_sync_type = sync_type_t.RANK)
    (hrs : p.statics.rankSync = some rankSync)
    (hk : p.mgr.rank.thread = k) :
    ∃ q, SyncManager.execute_switch p = Except.ok q ∧
      q.trace =
        p.trace ++
          ([Call.barrier_wait, Call.threadSync_before, Call.barrier_wait,
              Call.rankSync_execute k, Call.barrier_wait, Call.threadSync_after,
              Call.barrier_wait] ++
            (if k = 0 ∧ p.mgr.exit.isSome = true then [Call.exit_check] else []) ++
            [Call.barrier_wait]) ∧
      SyncManager.execute p = SyncManager.computeNextInsert q ∧
      ∃ p' time, SyncManager.computeNextInsert q = Except.ok p' ∧
        p'.trace = q.trace ++ [Call.insertActivity time (Activity.syncManager p.mgr.rank)] := by
  subst hk
  obtain ⟨q, hq, hm, hs, ht, -⟩ := SyncManager.execute_switch_RANK p rankSync hty hrs
  obtain ⟨p', time, h1, h2, -, -⟩ := SyncManager.computeNextInsert_spec q rankSync (hs ▸ hrs)
  refine ⟨q, hq, ht, ?_, p', time, h1, hm ▸ h2⟩
  simp only [SyncManager.execute, hq]
  rfl

/-- C3, witnessed on thread 0 of a two-rank, two-thread run with an `Exit` object. -/
theorem C3_execute_RANK_order_witness :
    ∃ q, SyncManager.execute_switch
        (World.proc sync_type_t.RANK ⟨0, 0⟩ ⟨2, 2⟩ Statics.init (World.start 2 10 20)) =
          Except.ok q ∧
      q.trace =
        [Call.new_RankSyncSerialSkip, Call.new_ThreadSyncSimpleSkip] ++
          ([Call.barrier_wait, Call.threadSync_before, Call.barrier_wait,
              Call.rankSync_execute 0, Call.barrier_wait, Call.threadSync_after,
              Call.barrier_wait] ++ [Call.exit_check] ++ [Call.barrier_wait]) ∧
      SyncManager.execute
          (World.proc sync_type_t.RANK ⟨0, 0⟩ ⟨2, 2⟩ Statics.init (World.start 2 10 20)) =
        SyncManager.computeNextInsert q ∧
      ∃ p' time, SyncManager.computeNextInsert q = Except.ok p' ∧
        p'.trace = q.trace ++ [Call.insertActivity time (Activity.syncManager ⟨0, 0⟩)] :=
  C3_execute_RANK_order
    (World.proc sync_type_t.RANK ⟨0, 0⟩ ⟨2, 2⟩ Statics.init (World.start 2 10 20))
    (NewRankSync.ofSerialSkip World.serialSkip) 0 rfl rfl rfl

/-- C4, as stated, fails: on a single-rank, single-thread worker (both syncs are the
empty ones, which never touch the barrier) one `RANK` epoch takes the barrier
generation from 0 to 5, not to 4, and the worker performs 5 barrier waits. -/
theorem C4_RANK_epoch_four_waits_counterexample :
    generationOf (SyncManager.execute
        (World.proc sync_type_t.RANK ⟨0, 0⟩ ⟨1, 1⟩ Statics.init (World.start 2 10 20))) =
      some 5 ∧
    generationOf (SyncManager.execute
        (World.proc sync_type_t.RANK ⟨0, 0⟩ ⟨1, 1⟩ Statics.init (World.start 2 10 20))) ≠
      some (World.barrier.generation (World.start 2 10 20) + 4) ∧
    (traceOf (SyncManager.execute
        (World.proc sync_type_t.RANK ⟨0, 0⟩ ⟨1, 1⟩ Statics.init (World.start 2 10 20)))).map
      (List.count Call.barrier_wait) = some 5 := by
  decide

/-- C4, amended: one `RANK` epoch performs exactly 5 barrier waits, and when every
wait advances the generation by one and neither the sub-syncs, `exit->check()` nor
`insertActivity` touch the barrier, the generation advances by exactly 5. -/
theorem C4_RANK_epoch_five_waits (p : Proc σ) (rankSync : NewRankSync σ)
    (hty : p.mgr.next_sync_type = sync_type_t.RANK)
    (hrs : p.statics.rankSync = some rankSync)
    (hwait : ∀ s, p.mgr.barrier.generation (p.mgr.barrier.wait s) =
      p.mgr.barrier.generation s + 1)
    (hbefore : ∀ s, p.mgr.barrier.generation (p.mgr.threadSync.before s).2 =
      p.mgr.barrier.generation s)
    (hafter : ∀ s, p.mgr.barrier.generation (p.mgr.threadSync.after s).2 =
      p.mgr.barrier.generation s)
    (hexec : ∀ s, p.mgr.barrier.generation (rankSync.execute p.mgr.rank.thread s).2 =
      p.mgr.barrier.generation s)
    (hcheck : ∀ exit, p.mgr.exit = some exit →
      ∀ s, p.mgr.barrier.generation (exit.check s) = p.mgr.barrier.generation s)
    (hinsert : ∀ time s,
      p.mgr.barrier.generation
          (p.mgr.sim.insertActivity time (Activity.syncManager p.mgr.rank) s) =
        p.mgr.barrier.generation s) :
    ∃ p' calls, SyncManager.execute p = Except.ok p' ∧ p'.trace = p.trace ++ calls ∧
      calls.count Call.barrier_wait = 5 ∧
      p'.mgr.barrier.generation p'.env = p.mgr.barrier.generation p.env + 5 := by
  obtain ⟨q, hq, hm, hs, ht, he⟩ := SyncManager.execute_switch_RANK p rankSync hty hrs
  obtain ⟨p', time, h1, h2, h3, h4⟩ := SyncManager.computeNextInsert_spec q rankSync (hs ▸ hrs)
  refine ⟨p',
    ([Call.barrier_wait, Call.threadSync_before, Call.barrier_wait,
        Call.rankSync_execute p.mgr.rank.thread, Call.barrier_wait, Call.threadSync_after,
        Call.barrier_wait] ++
      (if p.mgr.rank.thread = 0 ∧ p.mgr.exit.isSome = true then [Call.exit_check] else []) ++
      [Call.barrier_wait]) ++ [Call.insertActivity time (Activity.syncManager p.mgr.rank)],
    ?_, ?_, ?_, ?_⟩
  · simp only [SyncManager.execute, hq]
    exact h1
  · rw [h2, ht, hm, List.append_assoc]
  · by_cases hc : p.mgr.rank.thread = 0 ∧ p.mgr.exit.isSome = true <;> simp [hc]
  · rw [h3, h4, hm, he]
    simp only [hinsert, hwait]
    have hmid : ∀ s, p.mgr.barrier.generation
        ((match p.mgr.exit with
          | some exit => if p.mgr.rank.thread = 0 then exit.check else id
          | none => id) s) = p.mgr.barrier.generation s := by
      intro s
      cases hex : p.mgr.exit with
      | none => rfl
      | some ex =>
        by_cases hk : p.mgr.rank.thread = 0
        · simp only [hk, if_true]
          exact hcheck ex hex s
        · simp only [hk, if_false]
          rfl
    rw [hmid]
    simp only [hwait, hafter, hexec, hbefore]

/-- C4 (amended), witnessed on thread 0 of a two-rank, two-thread run in the sample
world, whose barrier counts generations and whose syncs never wait on it. -/
theorem C4_RANK_epoch_five_waits_witness :
    ∃ p' calls,
      SyncManager.execute
          (World.proc sync_type_t.RANK ⟨0, 0⟩ ⟨2, 2⟩ Statics.init (World.start 2 10 20)) =
        Except.ok p' ∧
      p'.trace = [Call.new_RankSyncSerialSkip, Call.new_ThreadSyncSimpleSkip] ++ calls ∧
      calls.count Call.barrier_wait = 5 ∧
      p'.mgr.barrier.generation p'.env = 0 + 5 :=
  C4_RANK_epoch_five_waits
    (World.proc sync_type_t.RANK ⟨0, 0⟩ ⟨2, 2⟩ Statics.init (World.start 2 10 20))
    (NewRankSync.ofSerialSkip World.serialSkip) rfl rfl (fun _ => rfl) (fun _ => rfl)
    (fun _ => rfl) (fun _ => rfl) (fun _ h => by cases h; exact fun _ => rfl)
    (fun _ _ => rfl)

/-- C5: when `next_sync_type` is `THREAD` (and `exit` is non-null), `execute` calls
`endSimulation(t)` if and only if `num_ranks.rank == 1`, `exit->getRefCount() == 0`
and `t` is `exit->getEndTime()`, both read after `threadSync->execute()`; it does so
at most once, and never while the reference count is positive. -/
theorem C5_execute_THREAD_endSimulation (p : Proc σ) (rankSync : NewRankSync σ)
    (exit : ExitPtr σ)
    (hty : p.mgr.next_sync_type = sync_type_t.THREAD)
    (hrs : p.statics.rankSync = some rankSync)
    (hex : p.mgr.exit = some exit) :
    ∃ p' calls, SyncManager.execute p = Except.ok p' ∧ p'.trace = p.trace ++ calls ∧
      (∀ t, Call.endSimulation t ∈ calls ↔
        p.mgr.num_ranks.rank = 1 ∧
          (exit.deref (p.mgr.threadSync.execute p.env).2).getRefCount = 0 ∧
          t = (exit.deref (p.mgr.threadSync.execute p.env).2).getEndTime) ∧
      (∀ t, calls.count (Call.endSimulation t) ≤ 1) ∧
      (0 < (exit.deref (p.mgr.threadSync.execute p.env).2).getRefCount →
        ∀ t, Call.endSimulation t ∉ calls) := by
  obtain ⟨mgr, statics, env, trace⟩ := p
  obtain ⟨rank, num_ranks, barrier, threadSync, nts, ty, sim, ex⟩ := mgr
  simp only at hty hrs hex
  subst hty hex
  by_cases hc : num_ranks.rank = 1 ∧ (exit.deref (threadSync.execute env).2).getRefCount = 0
  · obtain ⟨h1, h0⟩ := hc
    have hsw : SyncManager.execute_switch
        (⟨⟨rank, num_ranks, barrier, threadSync, nts, sync_type_t.THREAD, sim, some exit⟩,
          statics, env, trace⟩ : Proc σ) =
        Except.ok ((Proc.threadSync_execute
          (⟨⟨rank, num_ranks, barrier, threadSync, nts, sync_type_t.THREAD, sim, some exit⟩,
            statics, env, trace⟩ : Proc σ)).endSimulation
              (exit.deref (threadSync.execute env).2).getEndTime) := by
      simp only [SyncManager.execute_switch, Proc.threadSync_execute, h1, h0, if_true]
    obtain ⟨p', time, e1, e2, -, -⟩ := SyncManager.computeNextInsert_spec
      ((Proc.threadSync_execute
          (⟨⟨rank, num_ranks, barrier, threadSync, nts, sync_type_t.THREAD, sim, some exit⟩,
            statics, env, trace⟩ : Proc σ)).endSimulation
              (exit.deref (threadSync.execute env).2).getEndTime) rankSync hrs
    refine ⟨p', [Call.threadSync_execute,
        Call.endSimulation (exit.deref (threadSync.execute env).2).getEndTime,
        Call.insertActivity time (Activity.syncManager rank)], ?_, ?_, ?_, ?_, ?_⟩
    · simp only [SyncManager.execute, hsw]
      exact e1
    · rw [e2]
      simp [Proc.endSimulation, Proc.threadSync_execute]
    · intro t
      simp [h1, h0, eq_comm]
    · intro t
      by_cases ht : t = (exit.deref (threadSync.execute env).2).getEndTime <;>
        simp [List.count_cons, ht]
    · intro hpos
      simp only at hpos
      omega
  · have hsw : SyncManager.execute_switch
        (⟨⟨rank, num_ranks, barrier, threadSync, nts, sync_type_t.THREAD, sim, some exit⟩,
          statics, env, trace⟩ : Proc σ) =
        Except.ok (Proc.threadSync_execute
          (⟨⟨rank, num_ranks, barrier, threadSync, nts, sync_type_t.THREAD, sim, some exit⟩,
            statics, env, trace⟩ : Proc σ)) := by
      by_cases h1 : num_ranks.rank = 1
      · have h0 : ¬ (exit.deref (threadSync.execute env).2).getRefCount = 0 :=
          fun h => hc ⟨h1, h⟩
        simp only [SyncManager.execute_switch, Proc.threadSync_execute, h1, h0, if_true,
          if_false]
      · simp only [SyncManager.execute_switch, Proc.threadSync_execute, h1, if_false]
    obtain ⟨p', time, e1, e2, -, -⟩ := SyncManager.computeNextInsert_spec
      (Proc.threadSync_execute
          (⟨⟨rank, num_ranks, barrier, threadSync, nts, sync_type_t.THREAD, sim, some exit⟩,
            statics, env, trace⟩ : Proc σ)) rankSync hrs
    refine ⟨p', [Call.threadSync_execute,
        Call.insertActivity time (Activity.syncManager rank)], ?_, ?_, ?_, ?_, ?_⟩
    · simp only [SyncManager.execute, hsw]
      exact e1
    · rw [e2]
      simp [Proc.threadSync_execute]
    · intro t
      simp only [List.mem_cons, List.mem_singleton, reduceCtorEq, or_self, false_iff,
        List.mem_nil_iff, or_false]
      intro h
      exact hc ⟨h.1, h.2.1⟩
    · intro t
      simp [List.count_cons]
    · intro _ t
      simp

/-- C5, witnessed on a single-rank, two-thread worker whose `Exit` has reference
count 0 and end time 250. -/
theorem C5_execute_THREAD_endSimulation_witness :
    ∃ p' calls,
      SyncManager.execute
          (World.proc sync_type_t.THREAD ⟨0, 0⟩ ⟨1, 2⟩ Statics.init (World.start 0 30 20)) =
        Except.ok p' ∧
      p'.trace = [Call.new_EmptyRankSync, Call.new_ThreadSyncSimpleSkip] ++ calls ∧
      (∀ t, Call.endSimulation t ∈ calls ↔ 1 = 1 ∧ 0 = 0 ∧ t = 250) ∧
      (∀ t, calls.count (Call.endSimulation t) ≤ 1) ∧
      (0 < 0 → ∀ t, Call.endSimulation t ∉ calls) :=
  C5_execute_THREAD_endSimulation
    (World.proc sync_type_t.THREAD ⟨0, 0⟩ ⟨1, 2⟩ Statics.init (World.start 0 30 20))
    (NewRankSync.ofEmpty EmptyRankSync.new) World.exitPtr rfl rfl rfl


/-- C6: when `next_sync_type` is `THREAD`, `execute` calls `threadSync->execute()`
exactly once and issues no barrier wait, no `rankSync->execute` and no
`exit->check()`; so when neither `threadSync->execute()`, `endSimulation` nor
`insertActivity` touch the barrier, the epoch leaves the barrier generation
unchanged. -/
theorem C6_execute_THREAD_no_barrier (p : Proc σ) (rankSync : NewRankSync σ)
    (hty : p.mgr.next_sync_type = sync_type_t.THREAD)
    (hrs : p.statics.rankSync = some rankSync)
    (hex : p.mgr.num_ranks.rank = 1 → p.mgr.exit ≠ none)
    (hexec : ∀ s, p.mgr.barrier.generation (p.mgr.threadSync.execute s).2 =
      p.mgr.barrier.generation s)
    (hend : ∀ t s, p.mgr.barrier.generation (p.mgr.sim.endSimulation t s) =
      p.mgr.barrier.generation s)
    (hinsert : ∀ time s,
      p.mgr.barrier.generation
          (p.mgr.sim.insertActivity time (Activity.syncManager p.mgr.rank) s) =
        p.mgr.barrier.generation s) :
    ∃ p' calls, SyncManager.execute p = Except.ok p' ∧ p'.trace = p.trace ++ calls ∧
      calls.count Call.threadSync_execute = 1 ∧
      Call.barrier_wait ∉ calls ∧
      (∀ k, Call.rankSync_execute k ∉ calls) ∧
      Call.exit_check ∉ calls ∧
      p'.mgr.barrier.generation p'.env = p.mgr.barrier.generation p.env := by
  obtain ⟨q, hq, hm, hs, hcase⟩ := SyncManager.execute_switch_THREAD p hty hex
  obtain ⟨p', time, h1, h2, h3, h4⟩ := SyncManager.computeNextInsert_spec q rankSync (hs ▸ hrs)
  have hrun : SyncManager.execute p = Except.ok p' := by
    simp only [SyncManager.execute, hq]
    exact h1
  rcases hcase with ⟨ht, he⟩ | ⟨end_time, ht, he⟩
  · refine ⟨p', [Call.threadSync_execute,
      Call.insertActivity time (Activity.syncManager p.mgr.rank)], hrun, ?_, ?_, ?_, ?_, ?_, ?_⟩
    · rw [h2, ht, hm]
      simp
    · simp [List.count_cons]
    · simp
    · simp
    · simp
    · rw [h3, h4, hm, he, hinsert, hexec]
  · refine ⟨p', [Call.threadSync_execute, Call.endSimulation end_time,
      Call.insertActivity time (Activity.syncManager p.mgr.rank)], hrun, ?_, ?_, ?_, ?_, ?_, ?_⟩
    · rw [h2, ht, hm]
      simp
    · simp [List.count_cons]
    · simp
    · simp
    · simp
    · rw [h3, h4, hm, he, hinsert, hend, hexec]

/-- C6, witnessed on a single-rank, single-thread worker (`EmptyThreadSync`) forced
into a `THREAD` epoch with reference count 0. -/
theorem C6_execute_THREAD_no_barrier_witness :
    ∃ p' calls,
      SyncManager.execute
          (World.proc sync_type_t.THREAD ⟨0, 0⟩ ⟨1, 1⟩ Statics.init (World.start 0 30 20)) =
        Except.ok p' ∧
      p'.trace = [Call.new_EmptyRankSync, Call.new_EmptyThreadSync] ++ calls ∧
      calls.count Call.threadSync_execute = 1 ∧
      Call.barrier_wait ∉ calls ∧
      (∀ k, Call.rankSync_execute k ∉ calls) ∧
      Call.exit_check ∉ calls ∧
      p'.mgr.barrier.generation p'.env = 0 :=
  C6_execute_THREAD_no_barrier
    (World.proc sync_type_t.THREAD ⟨0, 0⟩ ⟨1, 1⟩ Statics.init (World.start 0 30 20))
    (NewRankSync.ofEmpty EmptyRankSync.new) rfl rfl (fun _ h => by cases h) (fun _ => rfl)
    (fun _ _ => rfl) (fun _ _ => rfl)

/-- C7: for every value of `next_sync_type` (`RANK`, `THREAD` or any other value),
whether or not `endSimulation` was called, `execute` runs its switch without
inserting anything and then ends with one run of `computeNextInsert`, so that the
epoch issues exactly one `insertActivity`, of the `SyncManager` itself.  The pointers
that `execute` reads through are non-null. -/
theorem C7_execute_ends_with_computeNextInsert (p : Proc σ) (rankSync : NewRankSync σ)
    (hrs : p.statics.rankSync = some rankSync)
    (hex : p.mgr.next_sync_type = sync_type_t.THREAD → p.mgr.num_ranks.rank = 1 →
      p.mgr.exit ≠ none) :
    ∃ q pre, SyncManager.execute_switch p = Except.ok q ∧ q.trace = p.trace ++ pre ∧
      (∀ time activity, Call.insertActivity time activity ∉ pre) ∧
      SyncManager.execute p = SyncManager.computeNextInsert q ∧
      ∃ p' time, SyncManager.computeNextInsert q = Except.ok p' ∧
        p'.trace = p.trace ++ pre ++ [Call.insertActivity time (Activity.syncManager p.mgr.rank)] ∧
        (p'.trace.drop p.trace.length).count
            (Call.insertActivity time (Activity.syncManager p.mgr.rank)) = 1 := by
  have key : ∀ q pre, SyncManager.execute_switch p = Except.ok q → q.mgr = p.mgr →
      q.statics = p.statics → q.trace = p.trace ++ pre →
      (∀ time activity, Call.insertActivity time activity ∉ pre) →
      ∃ q pre, SyncManager.execute_switch p = Except.ok q ∧ q.trace = p.trace ++ pre ∧
        (∀ time activity, Call.insertActivity time activity ∉ pre) ∧
        SyncManager.execute p = SyncManager.computeNextInsert q ∧
        ∃ p' time, SyncManager.computeNextInsert q = Except.ok p' ∧
          p'.trace =
            p.trace ++ pre ++ [Call.insertActivity time (Activity.syncManager p.mgr.rank)] ∧
          (p'.trace.drop p.trace.length).count
              (Call.insertActivity time (Activity.syncManager p.mgr.rank)) = 1 := by
    intro q pre hq hm hs ht hpre
    obtain ⟨p', time, h1, h2, -, -⟩ :=
      SyncManager.computeNextInsert_spec q rankSync (hs ▸ hrs)
    have htr : p'.trace =
        p.trace ++ pre ++ [Call.insertActivity time (Activity.syncManager p.mgr.rank)] := by
      rw [h2, ht, hm]
    refine ⟨q, pre, hq, ht, hpre, ?_, p', time, h1, htr, ?_⟩
    · simp only [SyncManager.execute, hq]
      rfl
    · rw [htr, List.append_assoc, List.drop_left, List.count_append,
        List.count_eq_zero_of_not_mem (hpre _ _)]
      simp
  cases hty : p.mgr.next_sync_type with
  | RANK =>
    obtain ⟨q, hq, hm, hs, ht, -⟩ := SyncManager.execute_switch_RANK p rankSync hty hrs
    refine key q _ hq hm hs ht ?_
    intro time activity
    by_cases hc : p.mgr.rank.thread = 0 ∧ p.mgr.exit.isSome = true <;> simp [hc]
  | THREAD =>
    obtain ⟨q, hq, hm, hs, hcase⟩ := SyncManager.execute_switch_THREAD p hty (hex hty)
    rcases hcase with ⟨ht, -⟩ | ⟨end_time, ht, -⟩
    · exact key q _ hq hm hs ht (by simp)
    · exact key q _ hq hm hs ht (by simp)
  | invalid raw =>
    have hq : SyncManager.execute_switch p = Except.ok p := by
      simp only [SyncManager.execute_switch, hty]
    exact key p [] hq rfl rfl (by simp) (by simp)

/-- C7, witnessed on a worker whose `next_sync_type` holds a value that is neither
`RANK` nor `THREAD` (thread 1 of a two-rank, two-thread run). -/
theorem C7_execute_ends_with_computeNextInsert_witness :
    ∃ q pre,
      SyncManager.execute_switch
          (World.proc (sync_type_t.invalid 7) ⟨0, 1⟩ ⟨2, 2⟩
            { rankSync := some (NewRankSync.ofSerialSkip World.serialSkip), next_rankSync := 0 }
            (World.start 0 30 20)) = Except.ok q ∧
      q.trace = [Call.new_ThreadSyncSimpleSkip] ++ pre ∧
      (∀ time activity, Call.insertActivity time activity ∉ pre) ∧
      SyncManager.execute
          (World.proc (sync_type_t.invalid 7) ⟨0, 1⟩ ⟨2, 2⟩
            { rankSync := some (NewRankSync.ofSerialSkip World.serialSkip), next_rankSync := 0 }
            (World.start 0 30 20)) = SyncManager.computeNextInsert q ∧
      ∃ p' time, SyncManager.computeNextInsert q = Except.ok p' ∧
        p'.trace = [Call.new_ThreadSyncSimpleSkip] ++ pre ++
          [Call.insertActivity time (Activity.syncManager ⟨0, 1⟩)] ∧
        (p'.trace.drop 1).count (Call.insertActivity time (Activity.syncManager ⟨0, 1⟩)) = 1 :=
  C7_execute_ends_with_computeNextInsert
    (World.proc (sync_type_t.invalid 7) ⟨0, 1⟩ ⟨2, 2⟩
      { rankSync := some (NewRankSync.ofSerialSkip World.serialSkip), next_rankSync := 0 }
      (World.start 0 30 20))
    (NewRankSync.ofSerialSkip World.serialSkip) rfl (fun h => by cases h)


/-! ## Claims about construction and link finalisation -/

/-- C8: the constructor of `SyncManager` selects the sync variants from the topology.
It creates a `RankSyncSerialSkip` exactly when `rank.thread == 0` and
`num_ranks.rank > 1`, and the shared `rankSync` then points to it; it creates an
`EmptyRankSync` exactly when `rank.thread == 0` and `num_ranks.rank <= 1`, and
`rankSync` then points to it; when `rank.thread != 0` the shared `rankSync` is
unchanged.  `threadSync` is a `ThreadSyncSimpleSkip` exactly when
`num_ranks.thread > 1`, and the freshly constructed `EmptyThreadSync` otherwise. -/
theorem C8_constructor_selects_syncs (cls : ConcreteSyncs σ) (getSimulation : Simulation σ)
    (uninit : sync_type_t) (rank num_ranks : RankInfo) (barrier : Barrier σ)
    (minPartTC : TimeConverter) (interThreadLatencies : List SimTime_t) (statics : Statics σ)
    (env : σ) :
    (Call.new_RankSyncSerialSkip ∈
        (SyncManager.new cls getSimulation uninit rank num_ranks barrier minPartTC
          interThreadLatencies statics env).trace ↔ rank.thread = 0 ∧ num_ranks.rank > 1) ∧
    (rank.thread = 0 ∧ num_ranks.rank > 1 →
      (SyncManager.new cls getSimulation uninit rank num_ranks barrier minPartTC
          interThreadLatencies statics env).statics.rankSync =
        some (NewRankSync.ofSerialSkip (cls.newRankSyncSerialSkip barrier minPartTC env).1)) ∧
    (Call.new_EmptyRankSync ∈
        (SyncManager.new cls getSimulation uninit rank num_ranks barrier minPartTC
          interThreadLatencies statics env).trace ↔ rank.thread = 0 ∧ num_ranks.rank ≤ 1) ∧
    (rank.thread = 0 ∧ num_ranks.rank ≤ 1 →
      (SyncManager.new cls getSimulation uninit rank num_ranks barrier minPartTC
          interThreadLatencies statics env).statics.rankSync =
        some (NewRankSync.ofEmpty EmptyRankSync.new)) ∧
    (rank.thread ≠ 0 →
      (SyncManager.new cls getSimulation uninit rank num_ranks barrier minPartTC
          interThreadLatencies statics env).statics.rankSync = statics.rankSync) ∧
    ((∃ obj, (SyncManager.new cls getSimulation uninit rank num_ranks barrier minPartTC
          interThreadLatencies statics env).mgr.threadSync = NewThreadSync.ofSimpleSkip obj) ↔
      num_ranks.thread > 1) ∧
    (Call.new_ThreadSyncSimpleSkip ∈
        (SyncManager.new cls getSimulation uninit rank num_ranks barrier minPartTC
          interThreadLatencies statics env).trace ↔ num_ranks.thread > 1) ∧
    ((SyncManager.new cls getSimulation uninit rank num_ranks barrier minPartTC
          interThreadLatencies statics env).mgr.threadSync =
        NewThreadSync.ofEmpty EmptyThreadSync.new ↔ ¬ num_ranks.thread > 1) ∧
    (Call.new_EmptyThreadSync ∈
        (SyncManager.new cls getSimulation uninit rank num_ranks barrier minPartTC
          interThreadLatencies statics env).trace ↔ ¬ num_ranks.thread > 1) := by
  by_cases h0 : rank.thread = 0 <;> by_cases h1 : num_ranks.rank > 1 <;>
    by_cases h2 : num_ranks.thread > 1 <;>
    simp [SyncManager.new, h0, h1, h2, Nat.le_of_not_lt]

/-- With a non-null `rankSync`, the two finalize calls of `finalizeLinkConfigurations`
return in the state that the calls themselves produce. -/
theorem SyncManager.finalize_calls (p : Proc σ) (rankSync : NewRankSync σ)
    (hrs : p.statics.rankSync = some rankSync) :
    ∃ q, (if p.threadSync_finalizeLinkConfigurations.mgr.rank.thread = 0 then
          p.threadSync_finalizeLinkConfigurations.rankSync_finalizeLinkConfigurations
        else Except.ok p.threadSync_finalizeLinkConfigurations) = Except.ok q ∧
      q.mgr = p.mgr ∧ q.statics = p.statics ∧
      q.trace =
        p.trace ++
          ([Call.threadSync_finalizeLinkConfigurations] ++
            (if p.mgr.rank.thread = 0 then [Call.rankSync_finalizeLinkConfigurations] else [])) ∧
      q.env =
        (if p.mgr.rank.thread = 0 then
          (rankSync.finalizeLinkConfigurations
            (p.mgr.threadSync.finalizeLinkConfigurations p.env).2).2
        else (p.mgr.threadSync.finalizeLinkConfigurations p.env).2) := by
  obtain ⟨mgr, statics, env, trace⟩ := p
  obtain ⟨rank, num_ranks, barrier, threadSync, nts, ty, sim, exit⟩ := mgr
  obtain ⟨rs, nrs⟩ := statics
  simp only at hrs
  subst hrs
  by_cases hk : rank.thread = 0
  · simp [Proc.threadSync_finalizeLinkConfigurations, Proc.rankSync_finalizeLinkConfigurations,
      hk, NewThreadSync.threadSync_finalize_fst, NewRankSync.rankSync_finalize_fst]
  · simp [Proc.threadSync_finalizeLinkConfigurations, hk,
      NewThreadSync.threadSync_finalize_fst]

/-- C9: the constructor of `SyncManager` issues no `insertActivity`; and
`finalizeLinkConfigurations` calls `threadSync->finalizeLinkConfigurations()`, then
`rankSync->finalizeLinkConfigurations()` exactly when `rank.thread == 0`, then inserts
the `SyncManager` exactly once (through `computeNextInsert`).  The state `q` in which
`computeNextInsert` runs is the one that the finalize calls produce: the outside state
is the result of the calls, and the `SyncManager` and its sync objects are as before. -/
theorem C9_unscheduled_until_finalize (cls : ConcreteSyncs σ) (getSimulation : Simulation σ)
    (uninit : sync_type_t) (rank num_ranks : RankInfo) (barrier : Barrier σ)
    (minPartTC : TimeConverter) (interThreadLatencies : List SimTime_t) (statics : Statics σ)
    (env : σ) (p : Proc σ) (rankSync : NewRankSync σ)
    (hrs : p.statics.rankSync = some rankSync) :
    (∀ time activity, Call.insertActivity time activity ∉
      (SyncManager.new cls getSimulation uninit rank num_ranks barrier minPartTC
        interThreadLatencies statics env).trace) ∧
    ∃ q p' time, SyncManager.finalizeLinkConfigurations p = SyncManager.computeNextInsert q ∧
      q.trace =
        p.trace ++
          ([Call.threadSync_finalizeLinkConfigurations] ++
            (if p.mgr.rank.thread = 0 then [Call.rankSync_finalizeLinkConfigurations] else [])) ∧
      q.env =
        (if p.mgr.rank.thread = 0 then
          (rankSync.finalizeLinkConfigurations
            (p.mgr.threadSync.finalizeLinkConfigurations p.env).2).2
        else (p.mgr.threadSync.finalizeLinkConfigurations p.env).2) ∧
      q.mgr = p.mgr ∧
      q.statics = p.statics ∧
      SyncManager.computeNextInsert q = Except.ok p' ∧
      SyncManager.finalizeLinkConfigurations p = Except.ok p' ∧
      p'.trace = q.trace ++ [Call.insertActivity time (Activity.syncManager p.mgr.rank)] ∧
      p'.env = p.mgr.sim.insertActivity time (Activity.syncManager p.mgr.rank) q.env := by
  constructor
  · intro time activity
    by_cases h0 : rank.thread = 0 <;> by_cases h1 : num_ranks.rank > 1 <;>
      by_cases h2 : num_ranks.thread > 1 <;>
      simp [SyncManager.new, h0, h1, h2]
  · obtain ⟨q, hq, hm, hs, ht, he⟩ := SyncManager.finalize_calls p rankSync hrs
    obtain ⟨p', time, h1, h2, h3, -⟩ :=
      SyncManager.computeNextInsert_spec q rankSync (hs ▸ hrs)
    have hfin : SyncManager.finalizeLinkConfigurations p = SyncManager.computeNextInsert q := by
      simp only [SyncManager.finalizeLinkConfigurations, hq]
      rfl
    exact ⟨q, p', time, hfin, ht, he, hm, hs, h1, hfin.trans h1, hm ▸ h2, hm ▸ h3⟩

/-- C9, witnessed on thread 0 of a two-rank, two-thread run, finalised right after
its construction. -/
theorem C9_unscheduled_until_finalize_witness :
    (∀ time activity, Call.insertActivity time activity ∉
      (SyncManager.new World.syncs World.sim sync_type_t.RANK ⟨0, 0⟩ ⟨2, 2⟩ World.barrier
        { factor := 1 } [] Statics.init (World.start 2 10 20)).trace) ∧
    ∃ q p' time,
      SyncManager.finalizeLinkConfigurations
          (World.proc sync_type_t.RANK ⟨0, 0⟩ ⟨2, 2⟩ Statics.init (World.start 2 10 20)) =
        SyncManager.computeNextInsert q ∧
      q.trace =
        [Call.new_RankSyncSerialSkip, Call.new_ThreadSyncSimpleSkip] ++
          ([Call.threadSync_finalizeLinkConfigurations] ++
            [Call.rankSync_finalizeLinkConfigurations]) ∧
      q.env = World.start 2 10 20 ∧
      q.mgr =
        (World.proc sync_type_t.RANK ⟨0, 0⟩ ⟨2, 2⟩ Statics.init (World.start 2 10 20)).mgr ∧
      q.statics =
        (World.proc sync_type_t.RANK ⟨0, 0⟩ ⟨2, 2⟩ Statics.init
          (World.start 2 10 20)).statics ∧
      SyncManager.computeNextInsert q = Except.ok p' ∧
      SyncManager.finalizeLinkConfigurations
          (World.proc sync_type_t.RANK ⟨0, 0⟩ ⟨2, 2⟩ Statics.init (World.start 2 10 20)) =
        Except.ok p' ∧
      p'.trace = q.trace ++ [Call.insertActivity time (Activity.syncManager ⟨0, 0⟩)] ∧
      p'.env = World.sim.insertActivity time (Activity.syncManager ⟨0, 0⟩) q.env :=
  C9_unscheduled_until_finalize World.syncs World.sim sync_type_t.RANK ⟨0, 0⟩ ⟨2, 2⟩
    World.barrier { factor := 1 } [] Statics.init (World.start 2 10 20)
    (World.proc sync_type_t.RANK ⟨0, 0⟩ ⟨2, 2⟩ Statics.init (World.start 2 10 20))
    (NewRankSync.ofSerialSkip World.serialSkip) rfl

/-! ## Claims about `EmptyRankSync` -/

/-- C10, as stated, fails: `EmptyRankSync::registerLink` returns the null pointer, so
its result is not an `UninitializedQueue` with any message. -/
theorem C10_registerLink_uninitialized_counterexample :
    (EmptyRankSync.new.registerLink ⟨1, 0⟩ ⟨0, 0⟩ 7 { id := 7 }).1 = none ∧
    ¬ ∃ message, (EmptyRankSync.new.registerLink ⟨1, 0⟩ ⟨0, 0⟩ 7 { id := 7 }).1 =
      some (ActivityQueue.UninitializedQueue message) := by
  constructor
  · rfl
  · rintro ⟨message, h⟩
    cases h

/-- C10, amended: for every `(to_rank, from_rank, link_id, link)`,
`EmptyRankSync::registerLink` returns the null pointer and leaves the object
unchanged, also when called through a `NewRankSync*`. -/
theorem C10_EmptyRankSync_registerLink_null (self : EmptyRankSync) (to_rank from_rank : RankInfo)
    (link_id : LinkId_t) (link : Link) (s : σ) :
    (self.registerLink to_rank from_rank link_id link).1 = none ∧
    (self.registerLink to_rank from_rank link_id link).2 = self ∧
    NewRankSync.registerLink (NewRankSync.ofEmpty self) to_rank from_rank link_id link s =
      (none, NewRankSync.ofEmpty self, s) :=
  ⟨rfl, rfl, rfl⟩

/-! ## Claims about the empty syncs and the placeholder queue -/

/-- No operation of `EmptyRankSync` changes the object. -/
theorem EmptyRankSync.rankRun_eq_self (self : EmptyRankSync) (ops : List EmptyRankSync.Op) :
    self.run ops = self := by
  induction ops generalizing self with
  | nil => rfl
  | cons op ops ih =>
    have hstep : self.step op = self := by cases op <;> rfl
    show (self.step op).run ops = self
    rw [hstep, ih]

/-- No operation of `EmptyThreadSync` changes the object. -/
theorem EmptyThreadSync.threadRun_eq_self (self : EmptyThreadSync) (ops : List EmptyThreadSync.Op) :
    self.run ops = self := by
  induction ops generalizing self with
  | nil => rfl
  | cons op ops ih =>
    have hstep : self.step op = self := by cases op <;> rfl
    show (self.step op).run ops = self
    rw [hstep, ih]

/-- C11: `EmptyRankSync` and `EmptyThreadSync` report `nextSyncTime == MAX_SIMTIME_T`
right after construction, and after every sequence of their operations (`execute`,
`before`, `after`, `registerLink`, `exchangeLinkInitData`, `processLinkInitData`,
`finalizeLinkConfigurations`), in any order, they still do. -/
theorem C11_empty_syncs_keep_max_time (rankOps : List EmptyRankSync.Op)
    (threadOps : List EmptyThreadSync.Op) :
    EmptyRankSync.new.getNextSyncTime = MAX_SIMTIME_T ∧
    EmptyThreadSync.new.getNextSyncTime = MAX_SIMTIME_T ∧
    (EmptyRankSync.new.run rankOps).getNextSyncTime = MAX_SIMTIME_T ∧
    (EmptyRankSync.new.run rankOps).nextSyncTime = MAX_SIMTIME_T ∧
    (EmptyThreadSync.new.run threadOps).getNextSyncTime = MAX_SIMTIME_T ∧
    (EmptyThreadSync.new.run threadOps).nextSyncTime = MAX_SIMTIME_T := by
  rw [EmptyRankSync.rankRun_eq_self, EmptyThreadSync.threadRun_eq_self]
  exact ⟨rfl, rfl, rfl, rfl, rfl, rfl⟩

/-- C12: on an `UninitializedQueue` built with any message `m`, each of `insert`
(with any argument), `pop`, `front`, `empty` and `size` writes exactly `m` followed
by a newline and then aborts; none returns a value or leaves a queue behind. -/
theorem C12_uninitialized_queue_aborts (m : String) (activity : Option Activity) :
    (UninitializedQueue.new m).insert activity = Outcome.aborts (m ++ "\n") ∧
    (UninitializedQueue.new m).pop = Outcome.aborts (m ++ "\n") ∧
    (UninitializedQueue.new m).front = Outcome.aborts (m ++ "\n") ∧
    (UninitializedQueue.new m).empty = Outcome.aborts (m ++ "\n") ∧
    (UninitializedQueue.new m).size = Outcome.aborts (m ++ "\n") ∧
    (∀ value queue, (UninitializedQueue.new m).insert activity ≠ Outcome.returns value queue) ∧
    (∀ value queue, (UninitializedQueue.new m).pop ≠ Outcome.returns value queue) ∧
    (∀ value queue, (UninitializedQueue.new m).front ≠ Outcome.returns value queue) ∧
    (∀ value queue, (UninitializedQueue.new m).empty ≠ Outcome.returns value queue) ∧
    (∀ value queue, (UninitializedQueue.new m).size ≠ Outcome.returns value queue) := by
  refine ⟨rfl, rfl, rfl, rfl, rfl, ?_, ?_, ?_, ?_, ?_⟩ <;>
    · intro value queue h
      cases h

theorem NewThreadSync.threadSync_registerLink_fst (ts : NewThreadSync σ) (link_id : LinkId_t)
    (link : Link) (s : σ) : (ts.registerLink link_id link s).1 = ts := by
  cases ts <;> rfl

theorem NewRankSync.rankSync_registerLink_snd (rs : NewRankSync σ) (to_rank from_rank : RankInfo)
    (link_id : LinkId_t) (link : Link) (s : σ) :
    (rs.registerLink to_rank from_rank link_id link s).2.1 = rs := by
  cases rs <;> rfl

/-! ## Claims about `registerLink` -/

/-- C13: `SyncManager::registerLink` dispatches on its endpoints.  When
`to_rank == from_rank` it returns null and changes nothing.  When the ranks are equal
and the threads differ it calls `registerLink(link_id, link)` on its own `threadSync`,
calls nothing on `rankSync`, and returns what the `threadSync` of thread
`to_rank.thread` answers to `getQueueForThread(from_rank.thread)`.  When the ranks
differ it returns exactly the result of `rankSync->registerLink(to_rank, from_rank,
link_id, link)` and leaves every thread sync alone. -/
theorem C13_registerLink_dispatch (instanceVec : Nat → Option (NewThreadSync σ)) (p : Proc σ)
    (to_rank from_rank : RankInfo) (link_id : LinkId_t) (link : Link)
    (rankSync : NewRankSync σ) (remoteSync : NewThreadSync σ)
    (hrs : p.statics.rankSync = some rankSync)
    (hremote : instanceVec to_rank.thread = some remoteSync) :
    (to_rank = from_rank →
      SyncManager.registerLink instanceVec p to_rank from_rank link_id link =
        Except.ok (none, p)) ∧
    (to_rank.rank = from_rank.rank → to_rank.thread ≠ from_rank.thread →
      ∃ p', SyncManager.registerLink instanceVec p to_rank from_rank link_id link =
          Except.ok (remoteSync.getQueueForThread from_rank.thread p'.env, p') ∧
        p'.trace = p.trace ++ [Call.threadSync_registerLink link_id link] ∧
        p'.env = (p.mgr.threadSync.registerLink link_id link p.env).2 ∧
        p'.statics.rankSync = p.statics.rankSync) ∧
    (to_rank.rank ≠ from_rank.rank →
      ∃ p', SyncManager.registerLink instanceVec p to_rank from_rank link_id link =
          Except.ok ((rankSync.registerLink to_rank from_rank link_id link p.env).1, p') ∧
        p'.trace = p.trace ++ [Call.rankSync_registerLink to_rank from_rank link_id link] ∧
        p'.env = (rankSync.registerLink to_rank from_rank link_id link p.env).2.2 ∧
        p'.mgr.threadSync = p.mgr.threadSync) := by
  refine ⟨?_, ?_, ?_⟩
  · intro h
    simp [SyncManager.registerLink, h]
  · intro hr ht
    have hne : to_rank ≠ from_rank := fun h => ht (by rw [h])
    refine ⟨{ p with
        mgr := { p.mgr with threadSync := (p.mgr.threadSync.registerLink link_id link p.env).1 }
        env := (p.mgr.threadSync.registerLink link_id link p.env).2
        trace := p.trace ++ [Call.threadSync_registerLink link_id link] }, ?_, rfl, rfl, rfl⟩
    simp [SyncManager.registerLink, hne, hr, hremote]
  · intro hr
    have hne : to_rank ≠ from_rank := fun h => hr (by rw [h])
    refine ⟨{ p with
        statics :=
          { p.statics with
            rankSync := some (rankSync.registerLink to_rank from_rank link_id link p.env).2.1 }
        env := (rankSync.registerLink to_rank from_rank link_id link p.env).2.2
        trace := p.trace ++ [Call.rankSync_registerLink to_rank from_rank link_id link] },
      ?_, rfl, rfl, rfl⟩
    simp [SyncManager.registerLink, hne, hr, hrs]

/-- C13, witnessed on thread 0 of a two-rank, two-thread run that registers a link
from its own thread to thread 1 of the same rank. -/
theorem C13_registerLink_dispatch_witness :
    ((⟨0, 1⟩ : RankInfo) = ⟨0, 0⟩ →
      SyncManager.registerLink (fun _ => some (NewThreadSync.ofSimpleSkip World.simpleSkip))
          (World.proc sync_type_t.RANK ⟨0, 0⟩ ⟨2, 2⟩ Statics.init (World.start 2 10 20))
          ⟨0, 1⟩ ⟨0, 0⟩ 7 { id := 7 } =
        Except.ok (none,
          World.proc sync_type_t.RANK ⟨0, 0⟩ ⟨2, 2⟩ Statics.init (World.start 2 10 20))) ∧
    ((0 : Nat) = 0 → (1 : Nat) ≠ 0 →
      ∃ p', SyncManager.registerLink (fun _ => some (NewThreadSync.ofSimpleSkip World.simpleSkip))
            (World.proc sync_type_t.RANK ⟨0, 0⟩ ⟨2, 2⟩ Statics.init (World.start 2 10 20))
            ⟨0, 1⟩ ⟨0, 0⟩ 7 { id := 7 } =
          Except.ok (some (ActivityQueue.threadSyncQueue 0 0), p') ∧
        p'.trace = [Call.new_RankSyncSerialSkip, Call.new_ThreadSyncSimpleSkip] ++
          [Call.threadSync_registerLink 7 { id := 7 }] ∧
        p'.env = World.start 2 10 20 ∧
        p'.statics.rankSync = some (NewRankSync.ofSerialSkip World.serialSkip)) ∧
    ((0 : Nat) ≠ 0 →
      ∃ p', SyncManager.registerLink (fun _ => some (NewThreadSync.ofSimpleSkip World.simpleSkip))
            (World.proc sync_type_t.RANK ⟨0, 0⟩ ⟨2, 2⟩ Statics.init (World.start 2 10 20))
            ⟨0, 1⟩ ⟨0, 0⟩ 7 { id := 7 } =
          Except.ok (some (ActivityQueue.rankQueue ⟨0, 1⟩), p') ∧
        p'.trace = [Call.new_RankSyncSerialSkip, Call.new_ThreadSyncSimpleSkip] ++
          [Call.rankSync_registerLink ⟨0, 1⟩ ⟨0, 0⟩ 7 { id := 7 }] ∧
        p'.env = World.start 2 10 20 ∧
        p'.mgr.threadSync = NewThreadSync.ofSimpleSkip World.simpleSkip) :=
  C13_registerLink_dispatch (fun _ => some (NewThreadSync.ofSimpleSkip World.simpleSkip))
    (World.proc sync_type_t.RANK ⟨0, 0⟩ ⟨2, 2⟩ Statics.init (World.start 2 10 20))
    ⟨0, 1⟩ ⟨0, 0⟩ 7 { id := 7 } (NewRankSync.ofSerialSkip World.serialSkip)
    (NewThreadSync.ofSimpleSkip World.simpleSkip) rfl rfl

/-! ## Claims about `Exit` -/

theorem Exit.length_adjust (f : Nat → Nat) (cs : List Nat) (thread : Nat) :
    (Exit.adjust f cs thread).length = cs.length := by
  induction cs generalizing thread with
  | nil => rfl
  | cons c cs ih =>
    cases thread with
    | zero => rfl
    | succ t => simp [Exit.adjust, ih]

theorem Exit.sum_adjust_succ (cs : List Nat) (thread : Nat) (h : thread < cs.length) :
    (Exit.adjust (fun c => c + 1) cs thread).sum = cs.sum + 1 := by
  induction cs generalizing thread with
  | nil => simp at h
  | cons c cs ih =>
    cases thread with
    | zero => simp [Exit.adjust]; omega
    | succ t =>
      have ht : t < cs.length := by simpa using h
      simp [Exit.adjust, ih t ht]; omega

theorem Exit.sum_adjust_pred (cs : List Nat) (thread : Nat) (h : cs.getD thread 0 ≠ 0) :
    (Exit.adjust (fun c => c - 1) cs thread).sum + 1 = cs.sum := by
  induction cs generalizing thread with
  | nil => simp at h
  | cons c cs ih =>
    cases thread with
    | zero =>
      have hc : c ≠ 0 := by simpa using h
      simp [Exit.adjust]; omega
    | succ t =>
      have ht : cs.getD t 0 ≠ 0 := by simpa using h
      have := ih t ht
      simp [Exit.adjust]; omega

/-- The invariant of C14 is kept by every completed call with a thread index in range. -/
theorem Exit.step_keeps_sum (e e' : Exit) (op : Exit.Op)
    (hlen : e.m_thread_counts.length = e.num_threads)
    (hsum : e.getRefCount = e.m_thread_counts.sum)
    (hthread : op.thread < e.num_threads)
    (hstep : e.step op = some e') :
    e'.m_thread_counts.length = e'.num_threads ∧ e'.num_threads = e.num_threads ∧
      e'.getRefCount = e'.m_thread_counts.sum := by
  cases op with
  | refInc id thread =>
    simp only [Exit.step, Option.some.injEq] at hstep
    subst hstep
    simp only [Exit.Op.thread] at hthread
    simp only [Exit.getRefCount] at hsum
    simp [Exit.refInc, Exit.getRefCount, Exit.length_adjust, hlen,
      Exit.sum_adjust_succ _ _ (hlen ▸ hthread), hsum]
  | refDec id thread =>
    simp only [Exit.step, Exit.refDec] at hstep
    split at hstep
    · cases hstep
    · rename_i hne
      simp only [Option.some.injEq] at hstep
      subst hstep
      simp only [Exit.getRefCount] at hsum
      have hne' : ¬ e.m_refCount = 0 ∧ ¬ e.m_thread_counts.getD thread 0 = 0 := by
        simpa [not_or] using hne
      have := Exit.sum_adjust_pred e.m_thread_counts thread hne'.2
      simp only [Exit.getRefCount, Exit.length_adjust, hlen, true_and]
      omega

/-- C14: starting from a fresh `Exit` for `num_threads` threads, after each completed
call of any sequence of `refInc` and `refDec` calls (any component ids, thread indices
below `num_threads`), `getRefCount()` equals the sum of the per-thread counts. -/
theorem C14_refcount_is_sum_of_thread_counts (num_threads : Nat) (single_rank : Bool)
    (ops : List Exit.Op) (hthreads : ∀ op ∈ ops, op.thread < num_threads) :
    ∀ e ∈ (Exit.new num_threads single_rank).history ops,
      e.getRefCount = e.m_thread_counts.sum := by
  have key : ∀ (ops : List Exit.Op) (e0 : Exit),
      e0.m_thread_counts.length = e0.num_threads → e0.getRefCount = e0.m_thread_counts.sum →
      (∀ op ∈ ops, op.thread < e0.num_threads) →
      ∀ e ∈ e0.history ops, e.getRefCount = e.m_thread_counts.sum := by
    intro ops
    induction ops with
    | nil => intro e0 _ _ _ e he; simp [Exit.history] at he
    | cons op ops ih =>
      intro e0 hlen hsum hth e he
      simp only [Exit.history] at he
      cases hstep : e0.step op with
      | none => simp [hstep] at he
      | some e1 =>
        simp only [hstep, List.mem_cons] at he
        obtain ⟨h1, h2, h3⟩ := Exit.step_keeps_sum e0 e1 op hlen hsum
          (hth op (List.mem_cons_self _ _)) hstep
        rcases he with rfl | he
        · exact h3
        · exact ih e1 h1 h3 (fun o ho => h2 ▸ hth o (List.mem_cons_of_mem _ ho)) e he
  exact key ops _ (by simp [Exit.new]) (by simp [Exit.new, Exit.getRefCount]) hthreads

/-- C14, witnessed on the scenario of the spec: two components register on threads 0
and 1, then both deregister; the counts after the four calls are 1, 2, 1, 0. -/
theorem C14_refcount_is_sum_of_thread_counts_witness :
    (∀ e ∈ (Exit.new 2 true).history
        [Exit.Op.refInc 10 0, Exit.Op.refInc 11 1, Exit.Op.refDec 10 0, Exit.Op.refDec 11 1],
      e.getRefCount = e.m_thread_counts.sum) ∧
    ((Exit.new 2 true).history
        [Exit.Op.refInc 10 0, Exit.Op.refInc 11 1, Exit.Op.refDec 10 0,
          Exit.Op.refDec 11 1]).map Exit.getRefCount = [1, 2, 1, 0] :=
  ⟨C14_refcount_is_sum_of_thread_counts 2 true
      [Exit.Op.refInc 10 0, Exit.Op.refInc 11 1, Exit.Op.refDec 10 0, Exit.Op.refDec 11 1]
      (by decide),
    by decide⟩

/-! ## Claims about the round-robin partitioner -/

/-- What the loop of `performPartition` does from counter value `counter` on, as long
as the counter stays an `int`. -/
theorem SSTRoundRobinPartition.loop_spec {α : Type} (world_size : Int) (hw : 0 < world_size)
    (compMap : List (PartitionComponent α)) (counter : Nat)
    (hn : (counter : Int) + compMap.length ≤ INT_MAX) :
    ∃ done, SSTRoundRobinPartition.loop world_size counter compMap = some done ∧
      done.length = compMap.length ∧
      ∀ (i : Nat) (comp : PartitionComponent α), compMap[i]? = some comp →
        done[i]? =
          some ({ comp with rank := ((counter + i : Nat) : Int) % world_size } :
            PartitionComponent α) := by
  induction compMap generalizing counter with
  | nil => exact ⟨[], rfl, rfl, by simp⟩
  | cons c rest ih =>
    have hlen : (((c :: rest).length : Nat) : Int) = (rest.length : Int) + 1 := by simp
    have hc : (counter : Int) ≠ INT_MAX := by
      intro h
      rw [hlen] at hn
      omega
    obtain ⟨done, h1, h2, h3⟩ := ih (counter + 1) (by rw [hlen] at hn; push_cast; omega)
    have h1' : SSTRoundRobinPartition.loop world_size ((counter : Int) + 1) rest = some done := by
      simpa using h1
    refine ⟨{ c with rank := Int.tmod counter world_size } :: done, ?_, by simp [h2], ?_⟩
    · simp [SSTRoundRobinPartition.loop, ne_of_gt hw, hc, h1']
    · intro i comp hi
      cases i with
      | zero =>
        simp only [List.getElem?_cons_zero, Option.some.injEq] at hi
        subst hi
        simp [Int.tmod_eq_emod (Int.ofNat_nonneg counter) (le_of_lt hw)]
      | succ j =>
        simp only [List.getElem?_cons_succ] at hi
        have := h3 j comp hi
        simp only [List.getElem?_cons_succ, this]
        congr 3
        omega

/-- C15: for every `world_size > 0` and every component map (short enough for the
`int` counter), `performPartition` returns, and the component at 0-based position `i`
of the iteration order gets rank `i mod world_size` with all its other data members
unchanged; hence every assigned rank lies in `[0, world_size)`. -/
theorem C15_round_robin_rank {α : Type} (world_size : Int)
    (compMap : List (PartitionComponent α))
    (hw : 0 < world_size) (hn : (compMap.length : Int) ≤ INT_MAX) :
    ∃ done, (SSTRoundRobinPartition.new world_size).performPartition compMap = some done ∧
      done.length = compMap.length ∧
      (∀ (i : Nat) (comp : PartitionComponent α), compMap[i]? = some comp →
        done[i]? = some ({ comp with rank := (i : Int) % world_size } : PartitionComponent α)) ∧
      (∀ comp ∈ done, 0 ≤ comp.rank ∧ comp.rank < world_size) := by
  obtain ⟨done, h1, h2, h3⟩ :=
    SSTRoundRobinPartition.loop_spec world_size hw compMap 0 (by simpa using hn)
  refine ⟨done, by simpa [SSTRoundRobinPartition.performPartition,
    SSTRoundRobinPartition.new] using h1, h2, ?_, ?_⟩
  · intro i comp hi
    simpa using h3 i comp hi
  · intro comp hmem
    obtain ⟨i, hi⟩ := List.getElem?_of_mem hmem
    have hilt : i < compMap.length := by
      rw [← h2]
      exact (List.getElem?_eq_some_iff.mp hi).1
    obtain ⟨orig, horig⟩ : ∃ orig, compMap[i]? = some orig :=
      ⟨compMap[i], List.getElem?_eq_getElem hilt⟩
    have := h3 i orig horig
    rw [hi] at this
    simp only [Option.some.injEq] at this
    subst this
    simp only [Nat.zero_add]
    exact ⟨Int.emod_nonneg _ (ne_of_gt hw), Int.emod_lt_of_pos _ hw⟩

/-- C15, witnessed on four components and three ranks: the ranks are 0, 1, 2, 0. -/
theorem C15_round_robin_rank_witness :
    ∃ done, (SSTRoundRobinPartition.new 3).performPartition
        [⟨7, "a"⟩, ⟨7, "b"⟩, ⟨7, "c"⟩, ⟨7, "d"⟩] = some done ∧
      done.length = [(⟨7, "a"⟩ : PartitionComponent String), ⟨7, "b"⟩, ⟨7, "c"⟩, ⟨7, "d"⟩].length ∧
      (∀ (i : Nat) (comp : PartitionComponent String),
          [(⟨7, "a"⟩ : PartitionComponent String), ⟨7, "b"⟩, ⟨7, "c"⟩, ⟨7, "d"⟩][i]? =
          some comp →
        done[i]? = some ({ comp with rank := (i : Int) % 3 } : PartitionComponent String)) ∧
      (∀ comp ∈ done, 0 ≤ comp.rank ∧ comp.rank < 3) :=
  C15_round_robin_rank 3 [⟨7, "a"⟩, ⟨7, "b"⟩, ⟨7, "c"⟩, ⟨7, "d"⟩] (by decide) (by decide)

/-- With `world_size >= 2`, the ranks `i mod world_size` and `(i + 1) mod world_size`
of two consecutive positions differ. -/
theorem emod_succ_ne (world_size : Int) (hw : 2 ≤ world_size) (i : Nat) :
    (i : Int) % world_size ≠ ((i + 1 : Nat) : Int) % world_size := by
  intro heq
  have hsub : (((i + 1 : Nat) : Int) - (i : Int)) % world_size = 0 :=
    Int.emod_eq_emod_iff_emod_sub_eq_zero.mp heq.symm
  have hone : (((i + 1 : Nat) : Int) - (i : Int)) = 1 := by push_cast; omega
  rw [hone, Int.emod_eq_of_lt (by decide) (by omega)] at hsub
  exact absurd hsub (by decide)

/-- C16: `performPartition` with `world_size >= 2` returns a component map of the same
length in which any two components `a`, `b` that are consecutive in the component map
(positions `i` and `i + 1`) stand at the same positions, with their other data members
unchanged, on different ranks. -/
theorem C16_round_robin_neighbours_differ {α : Type} (world_size : Int)
    (compMap : List (PartitionComponent α))
    (hw : 2 ≤ world_size) (hn : (compMap.length : Int) ≤ INT_MAX) :
    ∃ done, (SSTRoundRobinPartition.new world_size).performPartition compMap = some done ∧
      done.length = compMap.length ∧
      (∀ (i : Nat) (a b : PartitionComponent α),
        compMap[i]? = some a → compMap[i + 1]? = some b →
        ∃ a' b', done[i]? = some a' ∧ done[i + 1]? = some b' ∧
          a'.others = a.others ∧ b'.others = b.others ∧ a'.rank ≠ b'.rank) ∧
      (∀ i a b, done[i]? = some a → done[i + 1]? = some b → a.rank ≠ b.rank) := by
  have hw0 : 0 < world_size := by omega
  obtain ⟨done, h1, h2, h3⟩ :=
    SSTRoundRobinPartition.loop_spec world_size hw0 compMap 0 (by simpa using hn)
  refine ⟨done, by simpa [SSTRoundRobinPartition.performPartition,
    SSTRoundRobinPartition.new] using h1, h2, ?_, ?_⟩
  · intro i a b ha hb
    refine ⟨_, _, h3 i a ha, h3 (i + 1) b hb, rfl, rfl, ?_⟩
    simp only [Nat.zero_add]
    exact emod_succ_ne world_size hw i
  · intro i a b ha hb
    have hi1 : i + 1 < compMap.length := by
      rw [← h2]
      exact (List.getElem?_eq_some_iff.mp hb).1
    have hi0 : i < compMap.length := by omega
    have ea := h3 i compMap[i] (List.getElem?_eq_getElem hi0)
    have eb := h3 (i + 1) compMap[i + 1] (List.getElem?_eq_getElem hi1)
    rw [ha] at ea
    rw [hb] at eb
    simp only [Option.some.injEq] at ea eb
    subst ea eb
    simp only [Nat.zero_add]
    exact emod_succ_ne world_size hw i

/-- C16, witnessed on four components and two ranks. -/
theorem C16_round_robin_neighbours_differ_witness :
    ∃ done, (SSTRoundRobinPartition.new 2).performPartition
        [⟨7, "a"⟩, ⟨7, "b"⟩, ⟨7, "c"⟩, ⟨7, "d"⟩] = some done ∧
      done.length = [(⟨7, "a"⟩ : PartitionComponent String), ⟨7, "b"⟩, ⟨7, "c"⟩, ⟨7, "d"⟩].length ∧
      (∀ (i : Nat) (a b : PartitionComponent String),
        [(⟨7, "a"⟩ : PartitionComponent String), ⟨7, "b"⟩, ⟨7, "c"⟩, ⟨7, "d"⟩][i]? = some a →
        [(⟨7, "a"⟩ : PartitionComponent String), ⟨7, "b"⟩, ⟨7, "c"⟩, ⟨7, "d"⟩][i + 1]? =
          some b →
        ∃ a' b', done[i]? = some a' ∧ done[i + 1]? = some b' ∧
          a'.others = a.others ∧ b'.others = b.others ∧ a'.rank ≠ b'.rank) ∧
      (∀ i a b, done[i]? = some a → done[i + 1]? = some b → a.rank ≠ b.rank) :=
  C16_round_robin_neighbours_differ 2 [⟨7, "a"⟩, ⟨7, "b"⟩, ⟨7, "c"⟩, ⟨7, "d"⟩] (by decide)
    (by decide)

/-! ## Claims about `sstinfo` -/

theorem lor_land_self (a c : Nat) : (a ||| c) &&& c = c := by
  apply Nat.eq_of_testBit_eq
  intro i
  simp only [Nat.testBit_and, Nat.testBit_or]
  cases a.testBit i <;> cases c.testBit i <;> rfl

/-- C17: on every command line that `parseCmdLine` accepts (return value 0), starting
with the bit `CFG_FORMATHUMAN` clear, the bit is set afterwards if and only if the
value of `--format`, put to lower case, is not `"computer"`: it is set when
`--format` is absent, when its lower case is `"human"`, and when it is any other
string. -/
theorem C17_format_human_bit (CFG_FORMATHUMAN : Nat) (self : ConfigSSTInfo)
    (parsed : Except String variables_map)
    (hmask : CFG_FORMATHUMAN ≠ 0)
    (hclear : self.m_optionBits &&& CFG_FORMATHUMAN = 0)
    (hret : (self.parseCmdLine CFG_FORMATHUMAN parsed).1 = 0) :
    ∃ m_vm, parsed = Except.ok m_vm ∧
      (((self.parseCmdLine CFG_FORMATHUMAN parsed).2.m_optionBits &&& CFG_FORMATHUMAN ≠ 0) ↔
        m_vm.format.map tolower ≠ some "computer") ∧
      (m_vm.format = none →
        (self.parseCmdLine CFG_FORMATHUMAN parsed).2.m_optionBits &&& CFG_FORMATHUMAN ≠ 0) ∧
      (∀ format, m_vm.format = some format → tolower format ≠ "computer" →
        (self.parseCmdLine CFG_FORMATHUMAN parsed).2.m_optionBits &&& CFG_FORMATHUMAN ≠ 0) := by
  cases parsed with
  | error e => simp [ConfigSSTInfo.parseCmdLine] at hret
  | ok m_vm =>
    have hh : m_vm.help = false := by
      cases h : m_vm.help
      · rfl
      · simp [ConfigSSTInfo.parseCmdLine, h] at hret
    have hv : m_vm.version = false := by
      cases h : m_vm.version
      · rfl
      · simp [ConfigSSTInfo.parseCmdLine, hh, h] at hret
    have hset : (self.m_optionBits ||| CFG_FORMATHUMAN) &&& CFG_FORMATHUMAN ≠ 0 := by
      rw [lor_land_self]
      exact hmask
    have hcase : ∀ format, m_vm.format = some format →
        (((self.parseCmdLine CFG_FORMATHUMAN (Except.ok m_vm)).2.m_optionBits &&&
          CFG_FORMATHUMAN ≠ 0) ↔ tolower format ≠ "computer") := by
      intro format hf
      by_cases h1 : tolower format = "human"
      · simp [ConfigSSTInfo.parseCmdLine, hh, hv, hf, h1, hset]
      · by_cases h2 : tolower format = "computer"
        · simp [ConfigSSTInfo.parseCmdLine, hh, hv, hf, h2, hclear]
        · simp [ConfigSSTInfo.parseCmdLine, hh, hv, hf, h1, h2, hset]
    have hnone : m_vm.format = none →
        (self.parseCmdLine CFG_FORMATHUMAN (Except.ok m_vm)).2.m_optionBits &&&
          CFG_FORMATHUMAN ≠ 0 := by
      intro hf
      simp [ConfigSSTInfo.parseCmdLine, hh, hv, hf, hset]
    refine ⟨m_vm, rfl, ?_, hnone, fun format hf hne => (hcase format hf).mpr hne⟩
    cases hf : m_vm.format with
    | none => simpa using hnone hf
    | some format => simpa using hcase format hf

/-- C17, witnessed on `--format HuMan` with the mask 1. -/
theorem C17_format_human_bit_witness :
    ∃ m_vm, (Except.ok ⟨false, false, none, some "HuMan"⟩ : Except String variables_map) =
        Except.ok m_vm ∧
      (((ConfigSSTInfo.new.parseCmdLine 1
          (Except.ok ⟨false, false, none, some "HuMan"⟩)).2.m_optionBits &&& 1 ≠ 0) ↔
        m_vm.format.map tolower ≠ some "computer") ∧
      (m_vm.format = none →
        (ConfigSSTInfo.new.parseCmdLine 1
          (Except.ok ⟨false, false, none, some "HuMan"⟩)).2.m_optionBits &&& 1 ≠ 0) ∧
      (∀ format, m_vm.format = some format → tolower format ≠ "computer" →
        (ConfigSSTInfo.new.parseCmdLine 1
          (Except.ok ⟨false, false, none, some "HuMan"⟩)).2.m_optionBits &&& 1 ≠ 0) :=
  C17_format_human_bit 1 ConfigSSTInfo.new (Except.ok ⟨false, false, none, some "HuMan"⟩)
    (by decide) (by decide) (by decide)

/-! ## Claims about the single-rank, single-thread worker -/

/-- With the two empty syncs, `computeNextInsert` chooses `RANK` and inserts at
`MAX_SIMTIME_T`. -/
theorem SyncManager.computeNextInsert_empty (p : Proc σ)
    (hrs : p.statics.rankSync = some (NewRankSync.ofEmpty EmptyRankSync.new))
    (hts : p.mgr.threadSync = NewThreadSync.ofEmpty EmptyThreadSync.new) :
    SyncManager.computeNextInsert p =
      Except.ok ((p.set_next_sync_type sync_type_t.RANK).insertActivity MAX_SIMTIME_T) := by
  rw [SyncManager.computeNextInsert_eq p _ hrs, hts]
  simp only [NewRankSync.getNextSyncTime, NewThreadSync.getNextSyncTime,
    EmptyRankSync.getNextSyncTime, EmptyThreadSync.getNextSyncTime, EmptyRankSync.new,
    EmptyThreadSync.new, le_refl, if_true]

/-- The calls of a worker with the two empty syncs that never took the `THREAD`
branch. -/
theorem SyncManager.execute_empty (p : Proc σ)
    (hrs : p.statics.rankSync = some (NewRankSync.ofEmpty EmptyRankSync.new))
    (hts : p.mgr.threadSync = NewThreadSync.ofEmpty EmptyThreadSync.new)
    (hty : p.mgr.next_sync_type = sync_type_t.RANK)
    (hgood : ∀ c ∈ p.trace, c ≠ Call.threadSync_execute ∧ (∀ t, c ≠ Call.endSimulation t) ∧
      ∀ t a, c = Call.insertActivity t a → t = MAX_SIMTIME_T) :
    ∃ p', SyncManager.execute p = Except.ok p' ∧
      p'.statics.rankSync = some (NewRankSync.ofEmpty EmptyRankSync.new) ∧
      p'.mgr.threadSync = NewThreadSync.ofEmpty EmptyThreadSync.new ∧
      p'.mgr.next_sync_type = sync_type_t.RANK ∧
      ∀ c ∈ p'.trace, c ≠ Call.threadSync_execute ∧ (∀ t, c ≠ Call.endSimulation t) ∧
        ∀ t a, c = Call.insertActivity t a → t = MAX_SIMTIME_T := by
  obtain ⟨q, hq, hm, hs, ht, -⟩ := SyncManager.execute_switch_RANK p _ hty hrs
  have hcni := SyncManager.computeNextInsert_empty q (hs ▸ hrs) (hm ▸ hts)
  refine ⟨_, by simp only [SyncManager.execute, hq]; exact hcni, ?_, ?_, rfl, ?_⟩
  · simpa [Proc.insertActivity, Proc.set_next_sync_type, hs] using hrs
  · simpa [Proc.insertActivity, Proc.set_next_sync_type, hm] using hts
  · intro c hc
    simp only [Proc.insertActivity, Proc.set_next_sync_type, ht, List.mem_append,
      List.mem_singleton] at hc
    rcases hc with (hc | hc) | hc
    · exact hgood c hc
    · by_cases hx : p.mgr.rank.thread = 0 ∧ p.mgr.exit.isSome = true
      · simp only [hx, and_self, if_true, List.mem_append, List.mem_cons, List.mem_singleton,
          List.mem_nil_iff, or_false] at hc
        casesm* _ ∨ _ <;> subst_vars <;> simp
      · simp only [hx, if_false, List.mem_append, List.mem_cons, List.mem_singleton,
          List.mem_nil_iff, or_false] at hc
        casesm* _ ∨ _ <;> subst_vars <;> simp
    · subst hc
      simp

/-- On thread 0 with the two empty syncs, `finalizeLinkConfigurations` returns with
`next_sync_type == RANK` and keeps the empty syncs. -/
theorem SyncManager.finalize_empty (p : Proc σ)
    (hrs : p.statics.rankSync = some (NewRankSync.ofEmpty EmptyRankSync.new))
    (hts : p.mgr.threadSync = NewThreadSync.ofEmpty EmptyThreadSync.new)
    (hk : p.mgr.rank.thread = 0)
    (hgood : ∀ c ∈ p.trace, c ≠ Call.threadSync_execute ∧ (∀ t, c ≠ Call.endSimulation t) ∧
      ∀ t a, c = Call.insertActivity t a → t = MAX_SIMTIME_T) :
    ∃ p', SyncManager.finalizeLinkConfigurations p = Except.ok p' ∧
      p'.statics.rankSync = some (NewRankSync.ofEmpty EmptyRankSync.new) ∧
      p'.mgr.threadSync = NewThreadSync.ofEmpty EmptyThreadSync.new ∧
      p'.mgr.next_sync_type = sync_type_t.RANK ∧
      ∀ c ∈ p'.trace, c ≠ Call.threadSync_execute ∧ (∀ t, c ≠ Call.endSimulation t) ∧
        ∀ t a, c = Call.insertActivity t a → t = MAX_SIMTIME_T := by
  have hstep : (if p.threadSync_finalizeLinkConfigurations.mgr.rank.thread = 0 then
        p.threadSync_finalizeLinkConfigurations.rankSync_finalizeLinkConfigurations
      else Except.ok p.threadSync_finalizeLinkConfigurations) =
      Except.ok
        ({ p with
          env := p.env
          trace := p.trace ++ [Call.threadSync_finalizeLinkConfigurations,
            Call.rankSync_finalizeLinkConfigurations] } : Proc σ) := by
    obtain ⟨mgr, statics, env, trace⟩ := p
    obtain ⟨rank, num_ranks, barrier, threadSync, nts, ty, sim, exit⟩ := mgr
    obtain ⟨rs, nrs⟩ := statics
    simp only at hrs hts hk
    subst hrs hts
    simp [Proc.threadSync_finalizeLinkConfigurations, Proc.rankSync_finalizeLinkConfigurations,
      hk, NewThreadSync.finalizeLinkConfigurations, NewRankSync.finalizeLinkConfigurations,
      EmptyThreadSync.finalizeLinkConfigurations, EmptyRankSync.finalizeLinkConfigurations]
  have hcni := SyncManager.computeNextInsert_empty
    ({ p with
      env := p.env
      trace := p.trace ++ [Call.threadSync_finalizeLinkConfigurations,
        Call.rankSync_finalizeLinkConfigurations] } : Proc σ) hrs hts
  refine ⟨(({ p with
        env := p.env
        trace := p.trace ++ [Call.threadSync_finalizeLinkConfigurations,
          Call.rankSync_finalizeLinkConfigurations] } : Proc σ).set_next_sync_type
      sync_type_t.RANK).insertActivity MAX_SIMTIME_T, by
    simp only [SyncManager.finalizeLinkConfigurations, hstep]
    exact hcni, hrs, hts, rfl, ?_⟩
  intro c hc
  simp only [Proc.insertActivity, Proc.set_next_sync_type, List.mem_append, List.mem_cons,
    List.mem_singleton, List.mem_nil_iff, or_false] at hc
  rcases hc with (hc | hc) | hc
  · exact hgood c hc
  · casesm* _ ∨ _ <;> subst_vars <;> simp
  · subst hc
    simp

/-- C18: on a single-rank, single-thread worker (`rankSync` is an `EmptyRankSync`,
`threadSync` an `EmptyThreadSync`) every `computeNextInsert` sets `next_sync_type` to
`RANK` and inserts the `SyncManager` at `MAX_SIMTIME_T`; and after
`finalizeLinkConfigurations`, whatever happens between the epochs, every `execute`
finds `next_sync_type == RANK`, so the `THREAD` branch with its zero test of the
reference count is never run. -/
theorem C18_single_worker_never_thread (cls : ConcreteSyncs σ) (getSimulation : Simulation σ)
    (uninit : sync_type_t) (rank_id : Nat) (barrier : Barrier σ) (minPartTC : TimeConverter)
    (interThreadLatencies : List SimTime_t) (statics : Statics σ) (env : σ) :
    (∀ p : Proc σ, p.statics.rankSync = some (NewRankSync.ofEmpty EmptyRankSync.new) →
      p.mgr.threadSync = NewThreadSync.ofEmpty EmptyThreadSync.new →
      ∃ p', SyncManager.computeNextInsert p = Except.ok p' ∧
        p'.mgr.next_sync_type = sync_type_t.RANK ∧
        p'.trace =
          p.trace ++ [Call.insertActivity MAX_SIMTIME_T (Activity.syncManager p.mgr.rank)]) ∧
    ∃ p1, SyncManager.finalizeLinkConfigurations
        (SyncManager.new cls getSimulation uninit ⟨rank_id, 0⟩ ⟨1, 1⟩ barrier minPartTC
          interThreadLatencies statics env) = Except.ok p1 ∧
      p1.mgr.next_sync_type = sync_type_t.RANK ∧
      ∀ between : List (σ → σ), ∃ types p', SyncManager.epochs p1 between =
          Except.ok (types, p') ∧
        types = List.replicate between.length sync_type_t.RANK ∧
        sync_type_t.THREAD ∉ types ∧
        Call.threadSync_execute ∉ p'.trace ∧
        (∀ t, Call.endSimulation t ∉ p'.trace) ∧
        (∀ t a, Call.insertActivity t a ∈ p'.trace → t = MAX_SIMTIME_T) := by
  constructor
  · intro p hrs hts
    exact ⟨_, SyncManager.computeNextInsert_empty p hrs hts, rfl, rfl⟩
  · have hrun : ∀ (between : List (σ → σ)) (p : Proc σ),
        p.statics.rankSync = some (NewRankSync.ofEmpty EmptyRankSync.new) →
        p.mgr.threadSync = NewThreadSync.ofEmpty EmptyThreadSync.new →
        p.mgr.next_sync_type = sync_type_t.RANK →
        (∀ c ∈ p.trace, c ≠ Call.threadSync_execute ∧ (∀ t, c ≠ Call.endSimulation t) ∧
          ∀ t a, c = Call.insertActivity t a → t = MAX_SIMTIME_T) →
        ∃ types p', SyncManager.epochs p between = Except.ok (types, p') ∧
          types = List.replicate between.length sync_type_t.RANK ∧
          ∀ c ∈ p'.trace, c ≠ Call.threadSync_execute ∧ (∀ t, c ≠ Call.endSimulation t) ∧
            ∀ t a, c = Call.insertActivity t a → t = MAX_SIMTIME_T := by
      intro between
      induction between with
      | nil =>
        intro p _ _ _ hgood
        exact ⟨[], p, rfl, rfl, hgood⟩
      | cons f rest ih =>
        intro p hrs hts hty hgood
        obtain ⟨p2, h2, hrs2, hts2, hty2, hgood2⟩ :=
          SyncManager.execute_empty { p with env := f p.env } hrs hts hty hgood
        obtain ⟨types, p3, h3, htypes, hgood3⟩ := ih p2 hrs2 hts2 hty2 hgood2
        refine ⟨sync_type_t.RANK :: types, p3, ?_, ?_, hgood3⟩
        · simp only [SyncManager.epochs, h2, h3, hty]
        · simp [htypes, List.replicate_succ]
    have hfin := SyncManager.finalize_empty
      (SyncManager.new cls getSimulation uninit ⟨rank_id, 0⟩ ⟨1, 1⟩ barrier minPartTC
        interThreadLatencies statics env)
      (by simp [SyncManager.new]) (by simp [SyncManager.new]) (by simp [SyncManager.new])
      (by
        intro c hc
        simp only [SyncManager.new, if_true, Nat.lt_irrefl, if_false, List.nil_append,
          List.cons_append, List.mem_cons, List.mem_singleton, List.mem_nil_iff, or_false,
          gt_iff_lt] at hc
        casesm* _ ∨ _ <;> subst_vars <;> simp)
    obtain ⟨p1, hp1, hrs1, hts1, hty1, hgood1⟩ := hfin
    refine ⟨p1, hp1, hty1, ?_⟩
    intro between
    obtain ⟨types, p', h1, h2, h3⟩ := hrun between p1 hrs1 hts1 hty1 hgood1
    refine ⟨types, p', h1, h2, ?_, fun h => (h3 _ h).1 rfl, fun t h => (h3 _ h).2.1 t rfl,
      fun t a h => (h3 _ h).2.2 t a rfl⟩
    rw [h2]
    intro hmem
    exact absurd (List.eq_of_mem_replicate hmem) (by decide)

/-! ## Claims about `processSSTElementFiles` -/

theorem starts_eq_append (pat s : List Char) (h : starts pat s = true) :
    ∃ rest, s = pat ++ rest := by
  induction pat generalizing s with
  | nil => exact ⟨s, rfl⟩
  | cons p ps ih =>
    cases s with
    | nil => simp [starts] at h
    | cons c cs =>
      by_cases hpc : p = c
      · simp only [starts, hpc, if_true] at h
        obtain ⟨rest, hrest⟩ := ih cs h
        exact ⟨rest, by rw [hpc, hrest]; rfl⟩
      · simp [starts, hpc] at h

theorem findFrom_eq_some (pat s : List Char) (i j : Nat) (h : findFrom pat s i = some j) :
    ∃ before after, s = before ++ pat ++ after ∧ j = i + before.length := by
  induction s generalizing i with
  | nil =>
    by_cases hs : starts pat [] = true
    · simp only [findFrom, hs, if_true, Option.some.injEq] at h
      obtain ⟨rest, hrest⟩ := starts_eq_append pat [] hs
      exact ⟨[], rest, by simpa using hrest, by simp [h]⟩
    · simp [findFrom, hs] at h
  | cons c cs ih =>
    by_cases hs : starts pat (c :: cs) = true
    · simp only [findFrom, hs, if_true, Option.some.injEq] at h
      obtain ⟨rest, hrest⟩ := starts_eq_append pat (c :: cs) hs
      exact ⟨[], rest, by simpa using hrest, by simp [h]⟩
    · simp only [findFrom, hs, Bool.false_eq_true, if_false] at h
      obtain ⟨before, after, h1, h2⟩ := ih (i + 1) h
      exact ⟨c :: before, after, by simp [h1], by simp [h2]; omega⟩

/-- What the library-name filter of `processSSTElementFiles` accepts: a name, with
the flag `isDir` clear, made of `lib`, an element name and `.so`. -/
theorem isElementLibrary_shape (n : String) (isDir : Bool)
    (h : isElementLibrary n isDir = true) :
    isDir = false ∧ ∃ e : List Char, n.data = ['l', 'i', 'b'] ++ e ++ ['.', 's', 'o'] := by
  obtain ⟨l⟩ := n
  simp only [isElementLibrary, string_find, Bool.and_eq_true, beq_iff_eq, bne_iff_ne, ne_eq] at h
  obtain ⟨⟨⟨⟨hdir, hext⟩, hpos⟩, hlib⟩, hzero⟩ := h
  refine ⟨hdir, ?_⟩
  cases hfe : findFrom ['.', 's', 'o'] l 0 with
  | none => simp [hfe] at hext
  | some je =>
    cases hfl : findFrom ['l', 'i', 'b'] l 0 with
    | none => simp [hfl] at hlib
    | some jl =>
      simp only [hfe, Option.getD_some] at hpos
      simp only [hfl, Option.getD_some] at hzero
      subst hzero
      obtain ⟨before, after, h1, h2⟩ := findFrom_eq_some _ _ _ _ hfe
      obtain ⟨before', after', h3, h4⟩ := findFrom_eq_some _ _ _ _ hfl
      have hb' : before' = [] := by
        cases before' with
        | nil => rfl
        | cons _ _ => simp at h4
      subst hb'
      have hlen : (String.mk l).length = before.length + 3 + after.length := by
        show l.length = _
        rw [h1]
        simp only [List.length_append, List.length_cons, List.length_nil]
      have hafter : after = [] := by
        have : after.length = 0 := by
          rw [hpos, hlen, size_t_sub] at h2
          split at h2 <;> omega
        exact List.length_eq_zero.mp this
      subst hafter
      simp only [List.append_nil, List.nil_append] at h1 h3
      rw [h1] at h3
      match before, h3 with
      | [], h3 => simp at h3
      | [a], h3 => simp at h3
      | [a, b], h3 => simp at h3
      | a :: b :: c :: e, h3 =>
        simp only [List.cons_append, List.cons.injEq] at h3
        obtain ⟨rfl, rfl, rfl, -⟩ := h3
        exact ⟨e, by rw [h1]; simp⟩

/-- C19, on the code: the filter of `processSSTElementFiles` rejects the regular file
`libmy.solver.so` although its name begins with `lib` and ends with `.so` (the first
`.so` it finds is not the one at the end), so the entry is neither counted nor passed
to `loadLibrary`; `libmerlin.so` is accepted. -/
theorem C19_filter_rejects_inner_so :
    isElementLibrary "libmy.solver.so" false = false ∧
    "lib" ++ "my.solver" ++ ".so" = "libmy.solver.so" ∧
    (processSSTElementFiles (fun _ elemlib => some { name := elemlib }) ["all"] []
        (some [{ d_name := "libmy.solver.so", stat := some false }])).map
      (fun st => (st.g_fileProcessedCount, st.loaded)) = some (0, []) ∧
    isElementLibrary "libmerlin.so" false = true ∧
    (processSSTElementFiles (fun _ elemlib => some { name := elemlib }) ["all"] []
        (some [{ d_name := "libmerlin.so", stat := some false }])).map
      (fun st => (st.g_fileProcessedCount, st.loaded)) = some (1, ["merlin"]) := by
  decide

/-- For a name that the filter accepts, `substr(3, length - 6)` does not throw. -/
theorem substr_of_isElementLibrary (n : String) (isDir : Bool)
    (h : isElementLibrary n isDir = true) :
    ∃ e, string_substr n 3 (size_t_sub n.length 6) = some e := by
  obtain ⟨-, e, he⟩ := isElementLibrary_shape n isDir h
  obtain ⟨l⟩ := n
  simp only at he
  subst he
  have hlen : (String.mk (['l', 'i', 'b'] ++ e ++ ['.', 's', 'o'])).length = e.length + 6 := by
    show (['l', 'i', 'b'] ++ e ++ ['.', 's', 'o']).length = _
    simp
  refine ⟨String.mk ((((['l', 'i', 'b'] ++ e ++ ['.', 's', 'o'] : List Char)).drop 3).take
    (size_t_sub (e.length + 6) 6)), ?_⟩
  rw [hlen]
  simp [string_substr, hlen]

/-- The inner loop over the request list counts a directory entry once for every
request index that selects it, when the filter accepts the entry, and not at all
otherwise. -/
theorem SSTInfo.visit_count (ltdl : String → String → Option ElementLibraryInfo)
    (testAllEntries : Bool) (dirEntryName : String) (isDir : Bool) (rest : List String)
    (x : Nat) (st : SSTInfo) :
    ∃ st', SSTInfo.visit ltdl testAllEntries dirEntryName isDir x rest st = some st' ∧
      st'.g_fileProcessedCount =
        st.g_fileProcessedCount +
          (if isElementLibrary dirEntryName isDir then
            rest.countP fun request => testAllEntries || dirEntryName == request
          else 0) := by
  induction rest generalizing x st with
  | nil => exact ⟨st, rfl, by simp⟩
  | cons request rest ih =>
    by_cases hsel : (testAllEntries || dirEntryName == request) = true
    · by_cases hlib : isElementLibrary dirEntryName isDir = true
      · obtain ⟨e, he⟩ := substr_of_isElementLibrary dirEntryName isDir hlib
        cases hl : loadLibrary ltdl e with
        | none =>
          obtain ⟨st', h1, h2⟩ := ih (x + 1)
            { st with
              g_fileProcessedCount := st.g_fileProcessedCount + 1
              loaded := st.loaded ++ [e] }
          refine ⟨st', ?_, ?_⟩
          · simp only [SSTInfo.visit, hsel, hlib, he, hl, if_true]
            exact h1
          · rw [h2]
            simp only [hlib, if_true, List.countP_cons, hsel]
            omega
        | some pELI =>
          obtain ⟨st', h1, h2⟩ := ih (x + 1)
            { st with
              g_fileProcessedCount := st.g_fileProcessedCount + 1
              loaded := st.loaded ++ [e]
              g_libInfoArray := st.g_libInfoArray ++ [pELI]
              EntryProcessedArray := st.EntryProcessedArray.set x true }
          refine ⟨st', ?_, ?_⟩
          · simp only [SSTInfo.visit, hsel, hlib, he, hl, if_true]
            exact h1
          · rw [h2]
            simp only [hlib, if_true, List.countP_cons, hsel]
            omega
      · obtain ⟨st', h1, h2⟩ := ih (x + 1) st
        refine ⟨st', ?_, ?_⟩
        · simp only [SSTInfo.visit, hsel, hlib, if_true, if_false]
          exact h1
        · rw [h2]
          simp [hlib]
    · obtain ⟨st', h1, h2⟩ := ih (x + 1) st
      refine ⟨st', ?_, ?_⟩
      · simp only [SSTInfo.visit, hsel, if_false]
        exact h1
      · rw [h2]
        by_cases hlib : isElementLibrary dirEntryName isDir = true
        · simp only [hlib, if_true, List.countP_cons, hsel, if_false]
          simp
        · simp [hlib]

/-- What `processSSTElementFiles` leaves in `g_fileProcessedCount` when every `stat`
succeeds: each directory entry that the filter accepts counts once for every request
index that selects it. -/
theorem processSSTElementFiles_count (ltdl : String → String → Option ElementLibraryInfo)
    (requests : List String) (libs : List ElementLibraryInfo) (entries : List dirent)
    (hstat : ∀ entry ∈ entries, entry.stat ≠ none) :
    ∃ st, processSSTElementFiles ltdl requests libs (some entries) = some st ∧
      st.g_fileProcessedCount =
        ((entries.filter fun entry =>
            isElementLibrary entry.d_name (entry.stat.getD true)).map
          fun entry => selectingRequests requests entry.d_name).sum := by
  have hloop : ∀ (entries : List dirent) (st : SSTInfo),
      (∀ entry ∈ entries, entry.stat ≠ none) →
      ∃ st', SSTInfo.readdir ltdl (requests.any fun request => request == "all") requests
          entries st = some (st', false) ∧
        st'.g_fileProcessedCount =
          st.g_fileProcessedCount +
            ((entries.filter fun entry =>
                isElementLibrary entry.d_name (entry.stat.getD true)).map
              fun entry => selectingRequests requests entry.d_name).sum := by
    intro entries
    induction entries with
    | nil => intro st _; exact ⟨st, rfl, by simp⟩
    | cons entry entries ih =>
      intro st hst
      cases hs : entry.stat with
      | none => exact absurd hs (hst entry (List.mem_cons_self _ _))
      | some isDir =>
        obtain ⟨st1, h1, h2⟩ := SSTInfo.visit_count ltdl
          (requests.any fun request => request == "all") entry.d_name isDir requests 0 st
        obtain ⟨st2, h3, h4⟩ := ih st1 (fun e he => hst e (List.mem_cons_of_mem _ he))
        refine ⟨st2, ?_, ?_⟩
        · simp only [SSTInfo.readdir, hs, h1]
          exact h3
        · rw [h4, h2]
          by_cases hlib : isElementLibrary entry.d_name isDir = true
          · simp [List.filter_cons, hs, hlib, selectingRequests]
            omega
          · simp [List.filter_cons, hs, hlib]
  obtain ⟨st, h1, h2⟩ := hloop entries
    { g_fileProcessedCount := 0
      g_libInfoArray := libs
      EntryProcessedArray := requests.map fun request => request == "all"
      loaded := []
      warnings := [] } hstat
  by_cases hall : (requests.any fun request => request == "all") = true
  · refine ⟨st, ?_, by simpa using h2⟩
    rw [hall] at h1
    simp only [processSSTElementFiles, hall, h1]
    simp
  · refine ⟨{ st with
        warnings :=
          ((requests.zip st.EntryProcessedArray).filter fun entry => entry.2 == false).map
            fun entry => entry.1 }, ?_, by simpa using h2⟩
    simp only [Bool.not_eq_true] at hall
    rw [hall] at h1
    simp only [processSSTElementFiles, hall, h1]
    simp

/-- With the default request list `["all"]` and every `stat` succeeding,
`g_fileProcessedCount` is the number of directory entries that pass the filter. -/
theorem processSSTElementFiles_count_default
    (ltdl : String → String → Option ElementLibraryInfo) (libs : List ElementLibraryInfo)
    (entries : List dirent) (hstat : ∀ entry ∈ entries, entry.stat ≠ none) :
    ∃ st, processSSTElementFiles ltdl ["all"] libs (some entries) = some st ∧
      st.g_fileProcessedCount = processedFilesFound ["all"] entries := by
  obtain ⟨st, h1, h2⟩ := processSSTElementFiles_count ltdl ["all"] libs entries hstat
  refine ⟨st, h1, ?_⟩
  have hall : ("all" == "all") = true := by decide
  have hsel : ∀ name : String, selectingRequests ["all"] name = 1 := by
    intro name
    simp [selectingRequests, hall]
  have hfound : ∀ name : String, selectedByRequests ["all"] name = true := by
    intro name
    simp [selectedByRequests, hall]
  rw [h2]
  simp only [hsel, processedFilesFound, hfound, Bool.and_true]
  simp

/-- C21, on the code: with the request list `["all", "libmerlin.so"]` and a directory
that holds the one regular file `libmerlin.so`, `processSSTElementFiles` loads the
library twice and leaves `g_fileProcessedCount == 2`, although one file passes the
filter and is selected; with the default request list `["all"]` the count is 1. -/
theorem C21_file_counted_once_per_request :
    (processSSTElementFiles (fun _ elemlib => some { name := elemlib }) ["all", "libmerlin.so"]
        [] (some [{ d_name := "libmerlin.so", stat := some false }])).map
      (fun st => (st.g_fileProcessedCount, st.loaded)) = some (2, ["merlin", "merlin"]) ∧
    processedFilesFound ["all", "libmerlin.so"]
      [{ d_name := "libmerlin.so", stat := some false }] = 1 ∧
    (processSSTElementFiles (fun _ elemlib => some { name := elemlib })
        ["libmerlin.so", "libmerlin.so"] []
        (some [{ d_name := "libmerlin.so", stat := some false }])).map
      (fun st => st.g_fileProcessedCount) = some 2 ∧
    (processSSTElementFiles (fun _ elemlib => some { name := elemlib }) ["all"] []
        (some [{ d_name := "libmerlin.so", stat := some false }])).map
      (fun st => st.g_fileProcessedCount) = some 1 := by
  decide

end SST
